import Mathlib

/-!
# Maven artifact resolution and download (`internal/provider/maven.go`)

A shallow embedding of the Go source.  Go strings are byte sequences, a Go
`(value, error)` pair is a Lean pair whose second component is an `Option`,
a run-time panic is the `panic` outcome, and the outside world (HTTP, the XML
decoder, `path.Dir`, the filesystem) is passed explicitly.
-/

namespace Maven

set_option maxRecDepth 100000

/-! ## Go strings and the library functions the source calls -/

/-- Go `string`: an immutable sequence of bytes; `len` counts bytes. -/
abbrev GoString := List UInt8

/-- A Go string literal, as the bytes of its UTF-8 encoding. -/
def lit (s : String) : GoString := s.toUTF8.data.toList

/-- Result of running Go code that may stop with a run-time panic. -/
inductive Outcome (α : Type) where
  | ret (v : α)
  | panic
deriving DecidableEq, Repr

/-- Go slice expression `s[lo:hi]` on a string: panics unless `0 ≤ lo ≤ hi ≤ len(s)`. -/
def slice (s : GoString) (lo hi : Int) : Outcome GoString :=
  if 0 ≤ lo ∧ lo ≤ hi ∧ hi ≤ (s.length : Int) then
    Outcome.ret ((s.take hi.toNat).drop lo.toNat)
  else
    Outcome.panic

/-- Go `strings.HasSuffix`: `len(s) >= len(suffix) && s[len(s)-len(suffix):] == suffix`. -/
def HasSuffix (s suffix : GoString) : Bool :=
  decide (suffix.length ≤ s.length) && (s.drop (s.length - suffix.length) == suffix)

/-- Scanning loop of `strings.Replace(s, old, new, -1)` for a non-empty `old`:
the first argument counts the bytes of a matched `old` still to be skipped. -/
def replaceFrom (old new : GoString) : Nat → GoString → GoString
  | _, [] => []
  | skip + 1, _ :: rest => replaceFrom old new skip rest
  | 0, c :: rest =>
    if old.isPrefixOf (c :: rest) then
      new ++ replaceFrom old new (old.length - 1) rest
    else
      c :: replaceFrom old new 0 rest

/-- Go `strings.Replace(s, old, new, -1)` with a non-empty `old`: every
non-overlapping occurrence of `old`, left to right, is replaced by `new`. -/
def Replace (s old new : GoString) : GoString :=
  replaceFrom old new 0 s

/-- Go `%d` applied to a non-negative integer. -/
def decimal (n : Nat) : GoString := lit (toString n)

/-- The digit table of `encoding/hex`. -/
def hextable : GoString := lit "0123456789abcdef"

/-- Entry `hextable[i]`. -/
def hexDigit (i : Nat) : UInt8 := hextable.getD i 0

/-- Go `hex.EncodeToString`: two lower-case hexadecimal digits per byte. -/
def EncodeToString : GoString → GoString
  | [] => []
  | v :: rest => hexDigit (v.toNat / 16) :: hexDigit (v.toNat % 16) :: EncodeToString rest

/-! ## MD5 (`crypto/md5`), after RFC 1321 -/

/-- Per-round left-rotation amounts of MD5 (RFC 1321). -/
def md5Shift : List Nat :=
  [7, 12, 17, 22, 7, 12, 17, 22, 7, 12, 17, 22, 7, 12, 17, 22,
   5, 9, 14, 20, 5, 9, 14, 20, 5, 9, 14, 20, 5, 9, 14, 20,
   4, 11, 16, 23, 4, 11, 16, 23, 4, 11, 16, 23, 4, 11, 16, 23,
   6, 10, 15, 21, 6, 10, 15, 21, 6, 10, 15, 21, 6, 10, 15, 21]

/-- Additive constants of MD5: `floor(2^32 * |sin(i + 1)|)`. -/
def md5Sine : List Nat :=
  [
    0xd76aa478, 0xe8c7b756, 0x242070db, 0xc1bdceee,
    0xf57c0faf, 0x4787c62a, 0xa8304613, 0xfd469501,
    0x698098d8, 0x8b44f7af, 0xffff5bb1, 0x895cd7be,
    0x6b901122, 0xfd987193, 0xa679438e, 0x49b40821,
    0xf61e2562, 0xc040b340, 0x265e5a51, 0xe9b6c7aa,
    0xd62f105d, 0x02441453, 0xd8a1e681, 0xe7d3fbc8,
    0x21e1cde6, 0xc33707d6, 0xf4d50d87, 0x455a14ed,
    0xa9e3e905, 0xfcefa3f8, 0x676f02d9, 0x8d2a4c8a,
    0xfffa3942, 0x8771f681, 0x6d9d6122, 0xfde5380c,
    0xa4beea44, 0x4bdecfa9, 0xf6bb4b60, 0xbebfbc70,
    0x289b7ec6, 0xeaa127fa, 0xd4ef3085, 0x04881d05,
    0xd9d4d039, 0xe6db99e5, 0x1fa27cf8, 0xc4ac5665,
    0xf4292244, 0x432aff97, 0xab9423a7, 0xfc93a039,
    0x655b59c3, 0x8f0ccc92, 0xffeff47d, 0x85845dd1,
    0x6fa87e4f, 0xfe2ce6e0, 0xa3014314, 0x4e0811a1,
    0xf7537e82, 0xbd3af235, 0x2ad7d2bb, 0xeb86d391]

/-- Reduction to a 32-bit word: words are naturals below `2^32`. -/
def word (n : Nat) : Nat := n % 4294967296

/-- Rotate a 32-bit word left by `n` bits. -/
def rotl (x n : Nat) : Nat := word (x <<< n) ||| (x >>> (32 - n))

/-- Bitwise complement of a 32-bit word. -/
def notw (x : Nat) : Nat := 4294967295 - x

/-- MD5 chaining state `(a, b, c, d)`. -/
structure Md5State where
  a : Nat
  b : Nat
  c : Nat
  d : Nat
deriving DecidableEq, Repr

/-- One of the 64 operations of the MD5 compression function on message words `m`. -/
def md5Op (m : List Nat) (st : Md5State) (i : Nat) : Md5State :=
  let f :=
    if i < 16 then (st.b &&& st.c) ||| (notw st.b &&& st.d)
    else if i < 32 then (st.d &&& st.b) ||| (notw st.d &&& st.c)
    else if i < 48 then st.b ^^^ st.c ^^^ st.d
    else st.c ^^^ (st.b ||| notw st.d)
  let g :=
    if i < 16 then i
    else if i < 32 then (5 * i + 1) % 16
    else if i < 48 then (3 * i + 5) % 16
    else (7 * i) % 16
  let sum := word (f + st.a + md5Sine.getD i 0 + m.getD g 0)
  { a := st.d, b := word (st.b + rotl sum (md5Shift.getD i 0)), c := st.b, d := st.c }

/-- Little-endian 32-bit words of a block of bytes. -/
def leWords : GoString → List Nat
  | b0 :: b1 :: b2 :: b3 :: rest =>
    (b0.toNat + 256 * b1.toNat + 65536 * b2.toNat + 16777216 * b3.toNat) :: leWords rest
  | _ => []

/-- MD5 compression of one 64-byte block. -/
def md5Block (st : Md5State) (block : GoString) : Md5State :=
  let out := (List.range 64).foldl (md5Op (leWords block)) st
  { a := word (st.a + out.a), b := word (st.b + out.b), c := word (st.c + out.c),
    d := word (st.d + out.d) }

/-- Compress the padded message block by block. -/
def md5Blocks : Nat → Md5State → GoString → Md5State
  | 0, st, _ => st
  | fuel + 1, st, bytes =>
    if bytes = [] then st else md5Blocks fuel (md5Block st (bytes.take 64)) (bytes.drop 64)

/-- Little-endian bytes of a natural, `n` of them. -/
def leBytes : Nat → Nat → GoString
  | 0, _ => []
  | n + 1, x => UInt8.ofNat (x % 256) :: leBytes n (x / 256)

/-- MD5 padding: a `0x80` byte, zeros up to 56 modulo 64, the bit length in 8 bytes. -/
def md5Pad (msg : GoString) : GoString :=
  msg ++ [128] ++ List.replicate ((119 - msg.length % 64) % 64) 0
    ++ leBytes 8 ((8 * msg.length) % 18446744073709551616)

/-- The MD5 digest (`md5.New`, `Write`, `Sum(nil)`), 16 bytes. -/
def md5Sum (msg : GoString) : GoString :=
  let padded := md5Pad msg
  let st := md5Blocks padded.length
    { a := 0x67452301, b := 0xefcdab89, c := 0x98badcfe, d := 0x10325476 } padded
  leBytes 4 st.a ++ leBytes 4 st.b ++ leBytes 4 st.c ++ leBytes 4 st.d

/-! ## Coordinate model -/

/-- Constant `DefaultMavenRepoUrl`. -/
def DefaultMavenRepoUrl : GoString := lit "https://repo1.maven.org/maven2/"

/-- Constant `SnapshotVersionSuffix`. -/
def SnapshotVersionSuffix : GoString := lit "-SNAPSHOT"

/-- Type `Repository`. -/
structure Repository where
  Url : GoString
  Username : GoString
  Password : GoString
deriving DecidableEq, Repr

/-- Type `Artifact`. -/
structure Artifact where
  GroupId : GoString
  ArtifactId : GoString
  Version : GoString
  Classifier : GoString
  Extension : GoString
deriving DecidableEq, Repr

/-- Type `Metadata`; a nil `*Metadata` is `none : Option Metadata`. -/
structure Metadata where
  Timestamp : GoString
  BuildNumber : GoString
deriving DecidableEq, Repr

/-- Function `NewRepository`. -/
def NewRepository (url username password : GoString) : Repository :=
  let url := if url = [] then DefaultMavenRepoUrl else url
  let url := if !HasSuffix url (lit "/") then url ++ lit "/" else url
  { Url := url, Username := username, Password := password }

/-- Function `NewArtifact`. -/
def NewArtifact (groupId artifactId version classifier extension : GoString) : Artifact :=
  let extension := if extension = [] then lit "jar" else extension
  { GroupId := groupId, ArtifactId := artifactId, Version := version,
    Classifier := classifier, Extension := extension }

/-- Method `Metadata.SnapshotVersion`: `Sprintf("%s-%s", Timestamp, BuildNumber)`. -/
def Metadata.SnapshotVersion (r : Metadata) : GoString :=
  r.Timestamp ++ lit "-" ++ r.BuildNumber

/-- Method `Artifact.Path`:
`Sprintf("%s/%s/%s/", strings.Replace(GroupId, ".", "/", -1), ArtifactId, Version)`. -/
def Artifact.Path (a : Artifact) : GoString :=
  Replace a.GroupId (lit ".") (lit "/") ++ lit "/" ++ a.ArtifactId ++ lit "/" ++ a.Version
    ++ lit "/"

/-- Method `Artifact.FileName`.  With a resolved build the version is first cut
by `version[0 : len(version)-len(SnapshotVersionSuffix)]`, a slice expression
that panics when its upper bound is negative. -/
def Artifact.FileName (a : Artifact) (m : Option Metadata) : Outcome GoString :=
  let version := a.Version
  let rewritten : Outcome GoString :=
    match m with
    | some m =>
      match slice version 0 ((version.length : Int) - (SnapshotVersionSuffix.length : Int)) with
      | Outcome.panic => Outcome.panic
      | Outcome.ret version => Outcome.ret (version ++ lit "-" ++ m.SnapshotVersion)
    | none => Outcome.ret version
  match rewritten with
  | Outcome.panic => Outcome.panic
  | Outcome.ret version =>
    if a.Classifier ≠ [] then
      Outcome.ret (a.ArtifactId ++ lit "-" ++ version ++ lit "-" ++ a.Classifier ++ lit "."
        ++ a.Extension)
    else
      Outcome.ret (a.ArtifactId ++ lit "-" ++ version ++ lit "." ++ a.Extension)

/-- Method `Artifact.IsSnapshot`. -/
def Artifact.IsSnapshot (r : Artifact) : Bool :=
  HasSuffix r.Version SnapshotVersionSuffix

/-- Method `Artifact.MetadataUrl`. -/
def Artifact.MetadataUrl (a : Artifact) (r : Repository) : GoString :=
  r.Url ++ a.Path ++ lit "maven-metadata.xml"

/-- Method `Artifact.Url`. -/
def Artifact.Url (a : Artifact) (r : Repository) (m : Option Metadata) : Outcome GoString :=
  match a.FileName m with
  | Outcome.panic => Outcome.panic
  | Outcome.ret name => Outcome.ret (r.Url ++ a.Path ++ name)

/-- Method `Artifact.ChecksumUrl`. -/
def Artifact.ChecksumUrl (a : Artifact) (r : Repository) (m : Option Metadata) :
    Outcome GoString :=
  match a.FileName m with
  | Outcome.panic => Outcome.panic
  | Outcome.ret name => Outcome.ret (r.Url ++ a.Path ++ name ++ lit ".md5")

/-! ## The outside world -/

deriving instance DecidableEq for Except

/-- Go `error` value: the text of `Error()` and whether `os.IsNotExist` accepts it. -/
structure GoError where
  msg : GoString
  notExist : Bool
deriving DecidableEq, Repr

/-- Go `errors.New`. -/
def errorsNew (text : GoString) : GoError :=
  { msg := text, notExist := false }

/-- Go `fmt.Errorf(head + "%+w", err)`: a new error whose text is `head`
followed by the text of `err`; `os.IsNotExist` does not look through it. -/
def Errorf (head : GoString) (err : GoError) : GoError :=
  { msg := head ++ err.msg, notExist := false }

/-- An HTTP request as issued by `httpGet`: the URL and, when present, the
basic-authentication pair. -/
structure Request where
  url : GoString
  auth : Option (GoString × GoString)
deriving DecidableEq, Repr

/-- A response body stream: the bytes it delivers and, when the stream breaks
after them, the read error. -/
structure Body where
  data : GoString
  fault : Option GoError
deriving DecidableEq, Repr

/-- The part of `http.Response` the source inspects. -/
structure Response where
  StatusCode : Nat
  Body : Body
deriving DecidableEq, Repr

/-- The library functions whose results the source consumes and that are left
open: one HTTP round trip (`http.Get` / `client.Do`), `xml.Unmarshal` into a
`*Metadata`, and `path.Dir`.  The answer to a request is a function of the
request: the remote does not change during the calls considered. -/
structure Env where
  roundTrip : Request → Except GoError Response
  xmlUnmarshal : GoString → Except GoError Metadata
  pathDir : GoString → GoString

/-- What a path names in the filesystem.  A `file` is a regular file, or a
character device when its path is listed among the filesystem's `devices`.
`barred` is a path on which `os.Stat` fails with an error other than not-exist
(for instance a path below a regular file, or below a directory without search
permission). -/
inductive Node where
  | file (content : GoString) (modTime : Nat) (readable writable : Bool)
  | dir
  | barred
deriving DecidableEq, Repr

/-- Filesystem state: the nodes by path; a clock that advances with every
mutation and stamps modification times; the paths of the character devices
that discard what is written to them and keep their content (such as
`/dev/null`); and the owner permissions the process umask leaves on a file that
`os.Create` makes. -/
structure FileSystem where
  nodes : List (GoString × Node)
  clock : Nat
  devices : List GoString
  createdReadable : Bool
  createdWritable : Bool
deriving DecidableEq, Repr

/-- The node a path names, if any. -/
def FileSystem.find (fs : FileSystem) (path : GoString) : Option Node :=
  fs.nodes.lookup path

/-- Bind `path` to `node`, dropping what it named before, and advance the clock. -/
def FileSystem.put (fs : FileSystem) (path : GoString) (node : Node) : FileSystem :=
  { nodes := (path, node) :: fs.nodes.filter (fun entry => entry.1 != path),
    clock := fs.clock + 1,
    devices := fs.devices,
    createdReadable := fs.createdReadable,
    createdWritable := fs.createdWritable }

/-- Go `ioutil.ReadAll` on a response body. -/
def ReadAll (b : Body) : Except GoError GoString :=
  match b.fault with
  | some err => Except.error err
  | none => Except.ok b.data

/-- Go `os.Stat`, reduced to its error result (`none` is success). -/
def osStat (fs : FileSystem) (path : GoString) : Option GoError :=
  match fs.find path with
  | none =>
    some { msg := lit "stat " ++ path ++ lit ": no such file or directory", notExist := true }
  | some Node.barred =>
    some { msg := lit "stat " ++ path ++ lit ": permission denied", notExist := false }
  | some _ => none

/-- Go `os.Open`: the opened node, or the error. -/
def osOpen (fs : FileSystem) (path : GoString) : Except GoError Node :=
  match fs.find path with
  | none =>
    Except.error
      { msg := lit "open " ++ path ++ lit ": no such file or directory", notExist := true }
  | some Node.barred =>
    Except.error { msg := lit "open " ++ path ++ lit ": permission denied", notExist := false }
  | some (Node.file content modTime readable writable) =>
    if readable then Except.ok (Node.file content modTime readable writable)
    else
      Except.error { msg := lit "open " ++ path ++ lit ": permission denied", notExist := false }
  | some Node.dir => Except.ok Node.dir

/-- Go `io.Copy(hasher, f)`: the bytes fed to the hasher, or the read error. -/
def copyToHasher (path : GoString) (f : Node) : Except GoError GoString :=
  match f with
  | Node.file content _ _ _ => Except.ok content
  | _ => Except.error { msg := lit "read " ++ path ++ lit ": is a directory", notExist := false }

/-- Go `os.MkdirAll(dir, 0755)`: nothing to do on a directory, an error on
anything else that exists, otherwise the directory is created. -/
def osMkdirAll (fs : FileSystem) (dir : GoString) : Option GoError × FileSystem :=
  match fs.find dir with
  | some Node.dir => (none, fs)
  | some Node.barred =>
    (some { msg := lit "mkdir " ++ dir ++ lit ": permission denied", notExist := false }, fs)
  | some (Node.file _ _ _ _) =>
    (some { msg := lit "mkdir " ++ dir ++ lit ": not a directory", notExist := false }, fs)
  | none => (none, fs.put dir Node.dir)

/-- Go `os.Create` (`O_RDWR|O_CREATE|O_TRUNC`, mode 0666): an existing file is
opened when it may be both read and written, and truncated unless it is a
device; a missing file is created, with the permissions the umask leaves, when
its parent `parent` is a directory. -/
def osCreate (fs : FileSystem) (parent path : GoString) : Option GoError × FileSystem :=
  match fs.find path with
  | some Node.dir =>
    (some { msg := lit "open " ++ path ++ lit ": is a directory", notExist := false }, fs)
  | some Node.barred =>
    (some { msg := lit "open " ++ path ++ lit ": permission denied", notExist := false }, fs)
  | some (Node.file _ _ readable writable) =>
    if readable && writable then
      if path ∈ fs.devices then (none, fs)
      else (none, fs.put path (Node.file [] fs.clock readable writable))
    else
      (some { msg := lit "open " ++ path ++ lit ": permission denied", notExist := false }, fs)
  | none =>
    match fs.find parent with
    | some Node.dir =>
      (none, fs.put path (Node.file [] fs.clock fs.createdReadable fs.createdWritable))
    | _ =>
      (some { msg := lit "open " ++ path ++ lit ": no such file or directory", notExist := true },
        fs)

/-- Go `io.Copy(out, resp.Body)` into the file just opened by `os.Create` at
`path`: the delivered bytes are written (a device discards them), then the
stream's fault, if any, is returned.  The write goes through the open
descriptor, whatever the permissions of the file. -/
def copyToFile (fs : FileSystem) (path : GoString) (body : Body) :
    Option GoError × FileSystem :=
  match fs.find path with
  | some (Node.file content _ readable writable) =>
    if body.data = [] ∨ path ∈ fs.devices then (body.fault, fs)
    else (body.fault, fs.put path (Node.file (content ++ body.data) fs.clock readable writable))
  | _ => (some { msg := lit "write " ++ path ++ lit ": bad file descriptor", notExist := false }, fs)

/-! ## Checksum gate and transport helper -/

/-- The request `httpGet` sends: basic authentication only when both the user
name and the password are non-empty. -/
def httpRequest (url user pwd : GoString) : Request :=
  if user ≠ [] ∧ pwd ≠ [] then { url := url, auth := some (user, pwd) }
  else { url := url, auth := none }

/-- Function `httpGet`. -/
def httpGet (env : Env) (url user pwd : GoString) : Except GoError Response :=
  env.roundTrip (httpRequest url user pwd)

/-- The text `Sprintf("status code %d returned. URL: %s", status, url)`. -/
def statusMessage (status : Nat) (url : GoString) : GoString :=
  lit "status code " ++ decimal status ++ lit " returned. URL: " ++ url

/-- Function `fileExists`: false only when `os.Stat` fails with a not-exist error. -/
def fileExists (fs : FileSystem) (path : GoString) : Bool :=
  match osStat fs path with
  | some err => if err.notExist then false else true
  | none => true

/-- Function `verifyChecksum`. -/
def verifyChecksum (fs : FileSystem) (path expectedChecksum : GoString) :
    Bool × Option GoError :=
  match osOpen fs path with
  | Except.error err => (false, some (Errorf (lit "Error while open file: ") err))
  | Except.ok f =>
    match copyToHasher path f with
    | Except.error err => (false, some err)
    | Except.ok written => (EncodeToString (md5Sum written) == expectedChecksum, none)

/-- The three call sites of `httpGet`. -/
inductive Site where
  | metadata
  | checksum
  | artifact
deriving DecidableEq, Repr

/-- Observable actions of a call, in order. -/
inductive Event where
  | get (site : Site) (req : Request)
  | mkdirAll (dir : GoString)
  | create (path : GoString)
  | write (path : GoString) (data : GoString)
deriving DecidableEq, Repr

/-- Function `downloadChecksum`, with the requests it issued. -/
def downloadChecksum (env : Env) (repository : Repository) (artifact : Artifact)
    (metadata : Option Metadata) : Outcome (GoString × Option GoError) × List Event :=
  match artifact.ChecksumUrl repository metadata with
  | Outcome.panic => (Outcome.panic, [])
  | Outcome.ret url =>
    let sent := [Event.get Site.checksum (httpRequest url repository.Username repository.Password)]
    match httpGet env url repository.Username repository.Password with
    | Except.error err => (Outcome.ret ([], some err), sent)
    | Except.ok resp =>
      if 400 ≤ resp.StatusCode then
        (Outcome.ret ([], some (errorsNew (statusMessage resp.StatusCode url))), sent)
      else
        match ReadAll resp.Body with
        | Except.error err => (Outcome.ret ([], some err), sent)
        | Except.ok body => (Outcome.ret (body, none), sent)

/-! ## Transfer engine -/

/-- What a call of `DownloadMavenArtifact` leaves behind: the returned
`(string, error)` pair (or a panic), the filesystem, and the actions performed. -/
structure Exit where
  ret : Outcome (GoString × Option GoError)
  fs : FileSystem
  trace : List Event
deriving DecidableEq, Repr

/-- Lines 109-128 of `DownloadMavenArtifact`: either the function returns here
(`Sum.inl`, the returned pair) or it goes on with the `metadata` pointer
(`Sum.inr`); in both cases with the requests issued. -/
def metadataStep (env : Env) (repository : Repository) (artifact : Artifact) :
    Sum (GoString × Option GoError) (Option Metadata) × List Event :=
  if artifact.IsSnapshot then
    let metadataUrl := artifact.MetadataUrl repository
    let sent :=
      [Event.get Site.metadata (httpRequest metadataUrl repository.Username repository.Password)]
    match httpGet env metadataUrl repository.Username repository.Password with
    | Except.error err => (Sum.inl ([], some err), sent)
    | Except.ok resp =>
      if 400 ≤ resp.StatusCode then
        (Sum.inl ([], some (errorsNew (statusMessage resp.StatusCode metadataUrl))), sent)
      else
        match ReadAll resp.Body with
        | Except.error err => (Sum.inl ([], some err), sent)
        | Except.ok body =>
          match env.xmlUnmarshal body with
          | Except.error _ => (Sum.inl ([], none), sent)
          | Except.ok metadata => (Sum.inr (some metadata), sent)
  else
    (Sum.inr none, [])

/-- Lines 151-184 of `DownloadMavenArtifact`: fetch the artifact and write it
to `outputPath`. -/
def transferStep (env : Env) (repository : Repository) (artifact : Artifact)
    (metadata : Option Metadata) (outputPath : GoString) (fs : FileSystem) : Exit :=
  match artifact.Url repository metadata with
  | Outcome.panic => { ret := Outcome.panic, fs := fs, trace := [] }
  | Outcome.ret url =>
    let sent := [Event.get Site.artifact (httpRequest url repository.Username repository.Password)]
    match httpGet env url repository.Username repository.Password with
    | Except.error err => { ret := Outcome.ret ([], some err), fs := fs, trace := sent }
    | Except.ok resp =>
      if 400 ≤ resp.StatusCode then
        { ret := Outcome.ret ([], some (errorsNew (statusMessage resp.StatusCode url))),
          fs := fs, trace := sent }
      else
        let outputDir := env.pathDir outputPath
        let outputDir := if outputDir = [] then lit "." else outputDir
        let ensured : Option GoError × FileSystem × List Event :=
          match osStat fs outputDir with
          | some _ =>
            let made := osMkdirAll fs outputDir
            (made.1, made.2, [Event.mkdirAll outputDir])
          | none => (none, fs, [])
        match ensured with
        | (some err, fs1, done1) =>
          { ret := Outcome.ret ([], some err), fs := fs1, trace := sent ++ done1 }
        | (none, fs1, done1) =>
          match osCreate fs1 outputDir outputPath with
          | (some err, fs2) =>
            { ret := Outcome.ret ([], some err), fs := fs2,
              trace := sent ++ done1 ++ [Event.create outputPath] }
          | (none, fs2) =>
            match copyToFile fs2 outputPath resp.Body with
            | (some err, fs3) =>
              { ret := Outcome.ret ([], some err), fs := fs3,
                trace := sent ++ done1
                  ++ [Event.create outputPath, Event.write outputPath resp.Body.data] }
            | (none, fs3) =>
              { ret := Outcome.ret (outputPath, none), fs := fs3,
                trace := sent ++ done1
                  ++ [Event.create outputPath, Event.write outputPath resp.Body.data] }

/-- Function `DownloadMavenArtifact`. -/
def DownloadMavenArtifact (env : Env) (repository : Repository) (artifact : Artifact)
    (outputPath : GoString) (fs : FileSystem) : Exit :=
  match (if outputPath = [] then artifact.FileName none else Outcome.ret outputPath) with
  | Outcome.panic => { ret := Outcome.panic, fs := fs, trace := [] }
  | Outcome.ret outputPath =>
    match metadataStep env repository artifact with
    | (Sum.inl early, sent1) => { ret := Outcome.ret early, fs := fs, trace := sent1 }
    | (Sum.inr metadata, sent1) =>
      match downloadChecksum env repository artifact metadata with
      | (Outcome.panic, sent2) => { ret := Outcome.panic, fs := fs, trace := sent1 ++ sent2 }
      | (Outcome.ret (_, some err), sent2) =>
        { ret := Outcome.ret ([], some err), fs := fs, trace := sent1 ++ sent2 }
      | (Outcome.ret (checksum, none), sent2) =>
        let present := fileExists fs outputPath
        let verified : Bool × Option GoError :=
          if present then verifyChecksum fs outputPath checksum else (false, none)
        match verified with
        | (_, some err) => { ret := Outcome.ret ([], some err), fs := fs, trace := sent1 ++ sent2 }
        | (checksumMatches, none) =>
          if present && checksumMatches then
            { ret := Outcome.ret (outputPath, none), fs := fs, trace := sent1 ++ sent2 }
          else
            let moved := transferStep env repository artifact metadata outputPath fs
            { ret := moved.ret, fs := moved.fs, trace := sent1 ++ sent2 ++ moved.trace }


/-! ## Sample world

The remote repositories and disks used for the closed statements below. -/

/-- The coordinate `org.apache.commons:commons-text:1.9` of the repository's tests. -/
def commonsText : Artifact :=
  NewArtifact (lit "org.apache.commons") (lit "commons-text") (lit "1.9") [] []

/-- The coordinate `org.apache.commons:commons-text:1.9`, classifier `javadoc`. -/
def commonsTextJavadoc : Artifact :=
  NewArtifact (lit "org.apache.commons") (lit "commons-text") (lit "1.9") (lit "javadoc") []

/-- The rolling coordinate `org.apache.commons:commons-text:1.10.1-SNAPSHOT`. -/
def commonsTextSnapshot : Artifact :=
  NewArtifact (lit "org.apache.commons") (lit "commons-text") (lit "1.10.1-SNAPSHOT") [] []

/-- The coordinate `invalid.group:commons-text:1.9` of `TestDownloadNotFound`. -/
def invalidGroup : Artifact :=
  NewArtifact (lit "invalid.group") (lit "commons-text") (lit "1.9") [] []

/-- A resolved build: timestamp `20220816.123456`, build number `7`. -/
def sampleBuild : Metadata :=
  { Timestamp := lit "20220816.123456", BuildNumber := lit "7" }

/-- The default repository, `https://repo1.maven.org/maven2/`, no credentials. -/
def central : Repository := NewRepository [] [] []

/-- The snapshot repository of `TestDownloadSnapshot`. -/
def snapshots : Repository :=
  NewRepository (lit "https://repository.apache.org/content/repositories/snapshots") [] []

/-- A snapshot repository whose descriptor is not XML. -/
def brokenSnapshots : Repository := NewRepository (lit "https://broken.example/") [] []

/-- A repository whose `.md5` files end with a newline. -/
def newlineMirror : Repository := NewRepository (lit "https://newline.example/") [] []

/-- Bytes standing for the published `commons-text-1.9.jar`. -/
def jarBytes : GoString := lit "PK commons-text 1.9"

/-- MD5 hex digest of `jarBytes`. -/
def jarDigest : GoString := lit "17f92640c7c2548a1dc22982552a1d1a"

/-- Bytes standing for the published snapshot build. -/
def snapshotBytes : GoString := lit "PK commons-text 1.10.1-SNAPSHOT"

/-- MD5 hex digest of `snapshotBytes`. -/
def snapshotDigest : GoString := lit "2211cca80dd4f3f5399887a85ccbf7bb"

/-- The snapshot descriptor served as `maven-metadata.xml`. -/
def descriptor : GoString :=
  lit "<metadata><versioning><snapshot><timestamp>20220816.123456</timestamp>"
    ++ lit "<buildNumber>7</buildNumber></snapshot></versioning></metadata>"

/-- A `200` response with the given body, delivered in full. -/
def served (body : GoString) : Response :=
  { StatusCode := 200, Body := { data := body, fault := none } }

/-- URL of the sample jar on the default repository. -/
def jarUrl : GoString :=
  lit "https://repo1.maven.org/maven2/org/apache/commons/commons-text/1.9/commons-text-1.9.jar"

/-- URL of the checksum of the sample jar on the default repository. -/
def jarChecksumUrl : GoString :=
  lit "https://repo1.maven.org/maven2/org/apache/commons/commons-text/1.9/commons-text-1.9.jar.md5"

/-- URL of the checksum of `invalid.group:commons-text:1.9`, which does not exist. -/
def missingChecksumUrl : GoString :=
  lit "https://repo1.maven.org/maven2/invalid/group/commons-text/1.9/commons-text-1.9.jar.md5"

/-- Directory of the rolling coordinate on the snapshot repository. -/
def snapshotDir : GoString :=
  lit "https://repository.apache.org/content/repositories/snapshots/org/apache/commons/commons-text/1.10.1-SNAPSHOT/"

/-- URL of the descriptor on the repository whose descriptor is not XML. -/
def brokenMetadataUrl : GoString :=
  lit "https://broken.example/org/apache/commons/commons-text/1.10.1-SNAPSHOT/maven-metadata.xml"

/-- URL of the sample jar on the repository with newline-terminated checksums. -/
def mirrorJarUrl : GoString :=
  lit "https://newline.example/org/apache/commons/commons-text/1.9/commons-text-1.9.jar"

/-- URL of the newline-terminated checksum. -/
def mirrorChecksumUrl : GoString :=
  lit "https://newline.example/org/apache/commons/commons-text/1.9/commons-text-1.9.jar.md5"

/-- What the sample servers hold, by URL. -/
def routes : List (GoString × Response) :=
  [(jarUrl, served jarBytes),
   (jarChecksumUrl, served jarDigest),
   (snapshotDir ++ lit "maven-metadata.xml", served descriptor),
   (snapshotDir ++ lit "commons-text-1.10.1-20220816.123456-7.jar", served snapshotBytes),
   (snapshotDir ++ lit "commons-text-1.10.1-20220816.123456-7.jar.md5", served snapshotDigest),
   (brokenMetadataUrl, served (lit "not xml")),
   (mirrorJarUrl, served jarBytes),
   (mirrorChecksumUrl, served (jarDigest ++ [10]))]

/-- Go `path.Dir` on a path already in clean form: the part before the last `/`,
`.` when there is no `/`, `/` for a path directly below the root. -/
def cleanDir (path : GoString) : GoString :=
  let upto := (path.reverse.dropWhile (fun b => b != 47)).reverse
  let dir := (upto.reverse.dropWhile (fun b => b == 47)).reverse
  if upto = [] then lit "." else if dir = [] then lit "/" else dir

/-- The sample environment.  Unknown URLs answer `404`; the XML decoder
decodes the sample descriptor and answers `EOF` to any other body, which is
what `xml.Unmarshal` answers to a body without any element. -/
def sampleEnv : Env :=
  { roundTrip := fun req =>
      match routes.lookup req.url with
      | some resp => Except.ok resp
      | none => Except.ok { StatusCode := 404, Body := { data := [], fault := none } }
    xmlUnmarshal := fun body =>
      if body = descriptor then Except.ok sampleBuild
      else Except.error { msg := lit "EOF", notExist := false }
    pathDir := cleanDir }

/-- A disk holding only the working directory. -/
def emptyDisk : FileSystem :=
  { nodes := [(lit ".", Node.dir)], clock := 0, devices := [],
    createdReadable := true, createdWritable := true }

/-- A disk holding only the working directory, under a umask that takes the
owner's read permission from created files. -/
def maskedDisk : FileSystem :=
  { nodes := [(lit ".", Node.dir)], clock := 0, devices := [],
    createdReadable := false, createdWritable := true }

/-- The path of the null device. -/
def devNull : GoString := lit "/dev/null"

/-- A disk with the null device. -/
def deviceDisk : FileSystem :=
  { nodes := [(devNull, Node.file [] 0 true true), (lit "/dev", Node.dir), (lit ".", Node.dir)],
    clock := 1, devices := [devNull], createdReadable := true, createdWritable := true }

/-- The default output path of the fixed-version test coordinate. -/
def jarPath : GoString := lit "commons-text-1.9.jar"

/-- A disk on which `commons-text-1.9.jar` exists with other content and may
not be read. -/
def lockedDisk : FileSystem :=
  { nodes := [(jarPath, Node.file (lit "stale") 0 false true), (lit ".", Node.dir)],
    clock := 1, devices := [], createdReadable := true, createdWritable := true }

/-- A disk holding an up-to-date `commons-text-1.9.jar`. -/
def freshDisk : FileSystem :=
  { nodes := [(jarPath, Node.file jarBytes 1 true true), (lit ".", Node.dir)],
    clock := 2, devices := [], createdReadable := true, createdWritable := true }

/-- The error `verifyChecksum` returns on `lockedDisk`. -/
def lockedError : GoError :=
  { msg := lit "Error while open file: open commons-text-1.9.jar: permission denied",
    notExist := false }

/-- White space in the sense of Go `strings.TrimSpace` on ASCII text. -/
def isSpace (b : UInt8) : Bool :=
  b == 9 || b == 10 || b == 11 || b == 12 || b == 13 || b == 32

/-- The trimming the specification speaks of for the expected digest: leading
and trailing white space removed.  `downloadChecksum` contains no such call;
this definition only serves to state the specification's reading. -/
def trimmed (s : GoString) : GoString :=
  ((s.dropWhile isSpace).reverse.dropWhile isSpace).reverse

/-! ## Lemmas on the library functions -/

/-- The literal `.` is the byte 46. -/
theorem lit_dot : lit "." = [46] := by decide

/-- The literal `/` is the byte 47. -/
theorem lit_slash : lit "/" = [47] := by decide

/-- The suffix `-SNAPSHOT` has nine bytes. -/
theorem suffix_length : SnapshotVersionSuffix.length = 9 := by decide

/-- Replacing `.` by `/` acts byte by byte. -/
theorem replaceFrom_dot (g : GoString) :
    replaceFrom [46] [47] 0 g = g.map (fun b => if b = 46 then 47 else b) := by
  induction g with
  | nil => rfl
  | cons c rest ih =>
    by_cases hc : c = 46
    · subst hc
      simp [replaceFrom, List.isPrefixOf, ih]
    · have hc2 : ¬ (46 : UInt8) = c := fun h => hc h.symm
      simp [replaceFrom, List.isPrefixOf, ih, hc, hc2]

/-- A slice from 0 is a `take`, when in range. -/
theorem slice_zero (s : GoString) (hi : Int) :
    slice s 0 hi = if 0 ≤ hi ∧ hi ≤ (s.length : Int) then Outcome.ret (s.take hi.toNat)
      else Outcome.panic := by
  unfold slice
  by_cases h : 0 ≤ hi ∧ hi ≤ (s.length : Int)
  · simp [h]
  · have h2 : ¬ (0 ≤ hi ∧ hi ≤ (s.length : Int)) := h
    simp only [le_refl, true_and]
    rw [if_neg h2, if_neg h2]

/-- Cutting the suffix: in range exactly when the version has at least nine bytes. -/
theorem cut_version (v : GoString) :
    slice v 0 ((v.length : Int) - (SnapshotVersionSuffix.length : Int)) =
      if 9 ≤ v.length then Outcome.ret (v.take (v.length - 9)) else Outcome.panic := by
  rw [slice_zero, suffix_length]
  by_cases h : 9 ≤ v.length
  · have h1 : (0 : Int) ≤ (v.length : Int) - ((9 : Nat) : Int) ∧
        (v.length : Int) - ((9 : Nat) : Int) ≤ (v.length : Int) := by omega
    have h2 : ((v.length : Int) - ((9 : Nat) : Int)).toNat = v.length - 9 := by omega
    rw [if_pos h1, if_pos h, h2]
  · have h1 : ¬ ((0 : Int) ≤ (v.length : Int) - ((9 : Nat) : Int) ∧
        (v.length : Int) - ((9 : Nat) : Int) ≤ (v.length : Int)) := by omega
    rw [if_neg h1, if_neg h]

/-- A string is at least as long as any of its suffixes. -/
theorem hasSuffix_length (s suffix : GoString) (h : HasSuffix s suffix = true) :
    suffix.length ≤ s.length := by
  unfold HasSuffix at h
  simp at h
  exact h.1

/-- The plain file name. -/
theorem fileName_none (a : Artifact) :
    a.FileName none = Outcome.ret
      (if a.Classifier = [] then a.ArtifactId ++ lit "-" ++ a.Version ++ lit "." ++ a.Extension
       else a.ArtifactId ++ lit "-" ++ a.Version ++ lit "-" ++ a.Classifier ++ lit "."
        ++ a.Extension) := by
  unfold Artifact.FileName
  by_cases hc : a.Classifier = [] <;> simp [hc]

/-- The file name with a resolved build. -/
theorem fileName_some (a : Artifact) (m : Metadata) :
    a.FileName (some m) =
      if 9 ≤ a.Version.length then
        Outcome.ret
          (if a.Classifier = [] then
            a.ArtifactId ++ lit "-"
              ++ (a.Version.take (a.Version.length - 9) ++ lit "-" ++ m.SnapshotVersion)
              ++ lit "." ++ a.Extension
          else
            a.ArtifactId ++ lit "-"
              ++ (a.Version.take (a.Version.length - 9) ++ lit "-" ++ m.SnapshotVersion)
              ++ lit "-" ++ a.Classifier ++ lit "." ++ a.Extension)
      else Outcome.panic := by
  unfold Artifact.FileName
  simp only [cut_version]
  by_cases h : 9 ≤ a.Version.length
  · by_cases hc : a.Classifier = [] <;> simp [h, hc]
  · simp [h]

/-! ## Coordinate model: theorems -/

/-- C6: for a version `p ++ "-SNAPSHOT"` and a resolved build with timestamp `T`
and build number `B`, `FileName` is `artifactId-p-T-B.extension` when the
classifier is empty and `artifactId-p-T-B-classifier.extension` otherwise. -/
theorem fileName_resolved (a : Artifact) (m : Metadata) (p : GoString)
    (hv : a.Version = p ++ SnapshotVersionSuffix) :
    a.FileName (some m) = Outcome.ret
      (if a.Classifier = [] then
        a.ArtifactId ++ lit "-" ++ p ++ lit "-" ++ m.Timestamp ++ lit "-" ++ m.BuildNumber
          ++ lit "." ++ a.Extension
      else
        a.ArtifactId ++ lit "-" ++ p ++ lit "-" ++ m.Timestamp ++ lit "-" ++ m.BuildNumber
          ++ lit "-" ++ a.Classifier ++ lit "." ++ a.Extension) := by
  have hlen : a.Version.length = p.length + 9 := by
    rw [hv, List.length_append, suffix_length]
  have hcut : a.Version.take (a.Version.length - 9) = p := by
    rw [hlen, Nat.add_sub_cancel, hv, List.take_left']
    rfl
  rw [fileName_some, if_pos (by omega), hcut]
  by_cases hc : a.Classifier = [] <;>
    simp [hc, Metadata.SnapshotVersion, List.append_assoc]

/-- The rolling test coordinate with build `20220816.123456-7` is named
`commons-text-1.10.1-20220816.123456-7.jar`. -/
theorem fileName_resolved_witness :
    commonsTextSnapshot.Version = lit "1.10.1" ++ SnapshotVersionSuffix ∧
    commonsTextSnapshot.FileName (some sampleBuild) =
      Outcome.ret (lit "commons-text-1.10.1-20220816.123456-7.jar") :=
  ⟨by decide, (fileName_resolved commonsTextSnapshot sampleBuild (lit "1.10.1")
    (by decide)).trans (by decide)⟩

/-- C7: with no resolved build, `FileName` is `artifactId-version.extension`
when the classifier is empty and `artifactId-version-classifier.extension`
otherwise; this holds for every artifact, so for every non-rolling one. -/
theorem fileName_plain (a : Artifact) :
    (a.Classifier = [] →
      a.FileName none =
        Outcome.ret (a.ArtifactId ++ lit "-" ++ a.Version ++ lit "." ++ a.Extension)) ∧
    (a.Classifier ≠ [] →
      a.FileName none =
        Outcome.ret (a.ArtifactId ++ lit "-" ++ a.Version ++ lit "-" ++ a.Classifier ++ lit "."
          ++ a.Extension)) := by
  constructor
  · intro hc
    rw [fileName_none, if_pos hc]
  · intro hc
    rw [fileName_none, if_neg hc]

/-- The two fixed-version test coordinates: `commons-text-1.9.jar` and
`commons-text-1.9-javadoc.jar`. -/
theorem fileName_plain_witness :
    commonsText.IsSnapshot = false ∧
    commonsText.FileName none = Outcome.ret (lit "commons-text-1.9.jar") ∧
    commonsTextJavadoc.FileName none = Outcome.ret (lit "commons-text-1.9-javadoc.jar") :=
  ⟨by decide, ((fileName_plain commonsText).1 (by decide)).trans (by decide),
    ((fileName_plain commonsTextJavadoc).2 (by decide)).trans (by decide)⟩

/-- C9: `Path()` is the group id with every `.` byte turned into one `/` byte,
then `/artifactId/version/`; two artifacts that agree on group id, artifact id
and version have the same path; the path ends with `/`. -/
theorem path_shape (a : Artifact) :
    a.Path = a.GroupId.map (fun b => if b = 46 then 47 else b) ++ lit "/" ++ a.ArtifactId
      ++ lit "/" ++ a.Version ++ lit "/" ∧
    (∀ b : Artifact, b.GroupId = a.GroupId → b.ArtifactId = a.ArtifactId →
      b.Version = a.Version → b.Path = a.Path) ∧
    (∃ front, a.Path = front ++ lit "/") := by
  refine ⟨?_, ?_, ?_⟩
  · unfold Artifact.Path Replace
    rw [lit_dot, lit_slash, replaceFrom_dot]
  · intro b hg ha hv
    unfold Artifact.Path
    rw [hg, ha, hv]
  · exact ⟨_, rfl⟩

/-- The test coordinate and its `javadoc` variant share the path
`org/apache/commons/commons-text/1.9/`. -/
theorem path_shape_witness :
    commonsText.Path = lit "org/apache/commons/commons-text/1.9/" ∧
    commonsTextJavadoc.Path = commonsText.Path :=
  ⟨(path_shape commonsText).1.trans (by decide),
    (path_shape commonsText).2.1 commonsTextJavadoc (by decide) (by decide) (by decide)⟩

/-! ## Lemmas on the steps of `DownloadMavenArtifact` -/

/-- The request of `httpGet` carries the URL unchanged. -/
theorem httpRequest_url (url user pwd : GoString) : (httpRequest url user pwd).url = url := by
  unfold httpRequest
  split <;> rfl

/-- A path names what was last bound to it. -/
theorem find_put (fs : FileSystem) (path : GoString) (node : Node) :
    (fs.put path node).find path = some node := by
  simp [FileSystem.put, FileSystem.find, List.lookup]

/-- Requests of the metadata step go to the metadata URL. -/
theorem metadataStep_trace (env : Env) (r : Repository) (a : Artifact)
    (x : Sum (GoString × Option GoError) (Option Metadata)) (sent : List Event)
    (h : metadataStep env r a = (x, sent)) :
    ∀ ev ∈ sent, ev = Event.get Site.metadata (httpRequest (a.MetadataUrl r) r.Username r.Password) := by
  simp only [metadataStep] at h
  split at h
  · split at h
    · simp at h; obtain ⟨-, rfl⟩ := h; simp
    · split at h
      · simp at h; obtain ⟨-, rfl⟩ := h; simp
      · split at h
        · simp at h; obtain ⟨-, rfl⟩ := h; simp
        · split at h <;> (simp at h; obtain ⟨-, rfl⟩ := h; simp)
  · simp at h; obtain ⟨-, rfl⟩ := h; simp

/-- When the metadata step goes on, the pointer is set exactly for rolling
versions and the metadata request, if any, was answered below 400. -/
theorem metadataStep_inr (env : Env) (r : Repository) (a : Artifact)
    (m : Option Metadata) (sent : List Event)
    (h : metadataStep env r a = (Sum.inr m, sent)) :
    m.isSome = a.IsSnapshot ∧
    ∀ site req resp, Event.get site req ∈ sent → env.roundTrip req = Except.ok resp →
      ¬ 400 ≤ resp.StatusCode := by
  simp only [metadataStep] at h
  split at h
  next hs =>
    split at h
    · simp at h
    next resp0 hget =>
      split at h
      · simp at h
      next hlt =>
        split at h
        · simp at h
        · split at h
          · simp at h
          · simp at h
            obtain ⟨rfl, rfl⟩ := h
            refine ⟨by simp [hs], ?_⟩
            intro site req resp hmem hrt
            simp at hmem
            obtain ⟨-, rfl⟩ := hmem
            unfold httpGet at hget
            rw [hget] at hrt
            cases hrt
            exact hlt
  next hs =>
    simp at h
    obtain ⟨rfl, rfl⟩ := h
    refine ⟨by simp [hs], ?_⟩
    intro site req resp hmem
    simp at hmem

/-- When the metadata step returns and its request was answered with a status
of 400 or more, the returned pair is the status error for the metadata URL. -/
theorem metadataStep_inl (env : Env) (r : Repository) (a : Artifact)
    (early : GoString × Option GoError) (sent : List Event)
    (h : metadataStep env r a = (Sum.inl early, sent))
    (site : Site) (req : Request) (resp : Response)
    (hmem : Event.get site req ∈ sent) (hrt : env.roundTrip req = Except.ok resp)
    (hs : 400 ≤ resp.StatusCode) :
    early = ([], some (errorsNew (statusMessage resp.StatusCode req.url))) ∧
    sent = [Event.get site req] ∧ site = Site.metadata ∧ req.url = a.MetadataUrl r := by
  have htr := metadataStep_trace env r a _ _ h _ hmem
  simp at htr
  obtain ⟨rfl, rfl⟩ := htr
  simp only [metadataStep, httpGet, hrt] at h
  simp [hs] at h
  split at h
  · simp at h
    obtain ⟨rfl, rfl⟩ := h
    simp [httpRequest_url]
  · simp at h

/-- Requests of `downloadChecksum` go to the checksum URL. -/
theorem downloadChecksum_trace (env : Env) (r : Repository) (a : Artifact)
    (m : Option Metadata) (x : Outcome (GoString × Option GoError)) (sent : List Event)
    (h : downloadChecksum env r a m = (x, sent)) :
    ∀ ev ∈ sent, ∃ url, a.ChecksumUrl r m = Outcome.ret url ∧
      ev = Event.get Site.checksum (httpRequest url r.Username r.Password) := by
  simp only [downloadChecksum] at h
  split at h
  · simp at h; obtain ⟨-, rfl⟩ := h; simp
  next url hurl =>
    have key : ∀ ev ∈ [Event.get Site.checksum (httpRequest url r.Username r.Password)],
        ∃ url, a.ChecksumUrl r m = Outcome.ret url ∧
          ev = Event.get Site.checksum (httpRequest url r.Username r.Password) := by
      intro ev hev
      simp at hev
      exact ⟨url, hurl, hev⟩
    split at h
    · simp at h; obtain ⟨-, rfl⟩ := h; exact key
    · split at h
      · simp at h; obtain ⟨-, rfl⟩ := h; exact key
      · split at h <;> (simp at h; obtain ⟨-, rfl⟩ := h; exact key)

/-- A panic of `downloadChecksum` is a panic of `ChecksumUrl`, before any request. -/
theorem downloadChecksum_panic (env : Env) (r : Repository) (a : Artifact)
    (m : Option Metadata) (sent : List Event)
    (h : downloadChecksum env r a m = (Outcome.panic, sent)) :
    a.ChecksumUrl r m = Outcome.panic ∧ sent = [] := by
  simp only [downloadChecksum] at h
  split at h
  next hurl => simp at h; exact ⟨hurl, h⟩
  · split at h
    · simp at h
    · split at h
      · simp at h
      · split at h <;> simp at h

/-- A digest returned by `downloadChecksum` is the body, as delivered, of a
response below 400 to the one request made. -/
theorem downloadChecksum_ok (env : Env) (r : Repository) (a : Artifact)
    (m : Option Metadata) (checksum : GoString) (sent : List Event)
    (h : downloadChecksum env r a m = (Outcome.ret (checksum, none), sent)) :
    ∃ url resp, a.ChecksumUrl r m = Outcome.ret url ∧
      env.roundTrip (httpRequest url r.Username r.Password) = Except.ok resp ∧
      ¬ 400 ≤ resp.StatusCode ∧ resp.Body.fault = none ∧ checksum = resp.Body.data ∧
      sent = [Event.get Site.checksum (httpRequest url r.Username r.Password)] := by
  simp only [downloadChecksum] at h
  split at h
  · simp at h
  next url hurl =>
    split at h
    · simp at h
    next resp hget =>
      split at h
      · simp at h
      next hlt =>
        split at h
        · simp at h
        next body hread =>
          simp at h
          obtain ⟨rfl, rfl⟩ := h
          refine ⟨url, resp, hurl, hget, hlt, ?_, ?_, rfl⟩
          · unfold ReadAll at hread
            split at hread
            · simp at hread
            · assumption
          · unfold ReadAll at hread
            split at hread
            · simp at hread
            · simp at hread
              exact hread.symm

/-- When `downloadChecksum` fails and its request was answered with a status of
400 or more, the error is the status error for the checksum URL. -/
theorem downloadChecksum_err (env : Env) (r : Repository) (a : Artifact)
    (m : Option Metadata) (c : GoString) (err : GoError) (sent : List Event)
    (h : downloadChecksum env r a m = (Outcome.ret (c, some err), sent))
    (site : Site) (req : Request) (resp : Response)
    (hmem : Event.get site req ∈ sent) (hrt : env.roundTrip req = Except.ok resp)
    (hs : 400 ≤ resp.StatusCode) :
    err = errorsNew (statusMessage resp.StatusCode req.url) ∧
    sent = [Event.get site req] ∧ site = Site.checksum ∧
    a.ChecksumUrl r m = Outcome.ret req.url := by
  obtain ⟨url, hurl, hev⟩ := downloadChecksum_trace env r a m _ _ h _ hmem
  simp at hev
  obtain ⟨rfl, rfl⟩ := hev
  simp only [downloadChecksum, hurl, httpGet, hrt] at h
  simp [hs] at h
  obtain ⟨⟨-, rfl⟩, rfl⟩ := h
  simp [httpRequest_url, hurl]

/-- Binding a path leaves the devices as they were. -/
theorem put_devices (fs : FileSystem) (path : GoString) (node : Node) :
    (fs.put path node).devices = fs.devices := rfl

/-- Creating directories leaves the devices as they were. -/
theorem osMkdirAll_devices (fs : FileSystem) (dir : GoString) :
    (osMkdirAll fs dir).2.devices = fs.devices := by
  unfold osMkdirAll
  split <;> rfl

/-- What `osCreate` opens is a device, left as it was, or an empty file. -/
theorem osCreate_ok (fs fs2 : FileSystem) (parent path : GoString)
    (h : osCreate fs parent path = (none, fs2)) :
    fs2.devices = fs.devices ∧
    (path ∈ fs.devices ∨ ∃ t rd w, fs2.find path = some (Node.file [] t rd w)) := by
  unfold osCreate at h
  split at h
  · simp at h
  · simp at h
  next c t rd wr hfind =>
    split at h
    · split at h
      next hdev =>
        simp at h
        subst h
        exact ⟨rfl, Or.inl hdev⟩
      · simp at h
        subst h
        exact ⟨rfl, Or.inr ⟨_, _, _, find_put _ _ _⟩⟩
    · simp at h
  · split at h
    · simp at h
      subst h
      exact ⟨rfl, Or.inr ⟨_, _, _, find_put _ _ _⟩⟩
    · simp at h

/-- After a complete `copyToFile` into a file that is no device, the file holds
what it held followed by the delivered bytes, and the stream did not break. -/
theorem copyToFile_ok (fs fs3 : FileSystem) (path : GoString) (body : Body)
    (c : GoString) (t : Nat) (rd wr : Bool)
    (hfind : fs.find path = some (Node.file c t rd wr)) (hdev : path ∉ fs.devices)
    (h : copyToFile fs path body = (none, fs3)) :
    body.fault = none ∧ ∃ t3, fs3.find path = some (Node.file (c ++ body.data) t3 rd wr) := by
  unfold copyToFile at h
  rw [hfind] at h
  simp only at h
  split at h
  next hd =>
    have hd2 : body.data = [] := hd.resolve_right hdev
    simp at h
    obtain ⟨h1, rfl⟩ := h
    exact ⟨h1, t, by simp [hfind, hd2]⟩
  · simp at h
    obtain ⟨h1, rfl⟩ := h
    exact ⟨h1, _, find_put _ _ _⟩

/-- After `osCreate` and a complete `copyToFile`, the path names a device or a
file that holds the delivered bytes. -/
theorem written_back (fs fs2 fs3 : FileSystem) (parent path : GoString) (body : Body)
    (hcr : osCreate fs parent path = (none, fs2))
    (hcp : copyToFile fs2 path body = (none, fs3)) :
    path ∈ fs.devices ∨ ∃ t rd w, fs3.find path = some (Node.file body.data t rd w) := by
  obtain ⟨hdevs, hopen⟩ := osCreate_ok fs fs2 parent path hcr
  rcases hopen with hdev | ⟨t, rd, w, hf2⟩
  · exact Or.inl hdev
  · by_cases hdev : path ∈ fs.devices
    · exact Or.inl hdev
    · have hdev2 : path ∉ fs2.devices := by rw [hdevs]; exact hdev
      obtain ⟨-, t3, hf3⟩ := copyToFile_ok fs2 fs3 path body [] t rd w hf2 hdev2 hcp
      exact Or.inr ⟨t3, rd, w, by simpa using hf3⟩

/-- The transfer step, once the artifact URL is composed: the trace starts with
the artifact request and holds no other request; there is no panic; a status of
400 or more ends the call with the status error before anything is written; on
success the returned path is `outputPath`, which then names a device or a file
that holds the delivered body. -/
theorem transferStep_spec (env : Env) (r : Repository) (a : Artifact) (m : Option Metadata)
    (out : GoString) (fs : FileSystem) (url : GoString) (hurl : a.Url r m = Outcome.ret url) :
    ∃ rest, (transferStep env r a m out fs).trace =
        Event.get Site.artifact (httpRequest url r.Username r.Password) :: rest ∧
      (∀ ev ∈ rest, ∀ s q, ev ≠ Event.get s q) ∧
      (transferStep env r a m out fs).ret ≠ Outcome.panic ∧
      (∀ resp, env.roundTrip (httpRequest url r.Username r.Password) = Except.ok resp →
        400 ≤ resp.StatusCode →
        (transferStep env r a m out fs).ret =
            Outcome.ret ([], some (errorsNew (statusMessage resp.StatusCode url))) ∧
          rest = [] ∧ (transferStep env r a m out fs).fs = fs) ∧
      (∀ p, (transferStep env r a m out fs).ret = Outcome.ret (p, none) →
        p = out ∧ ∃ resp,
          env.roundTrip (httpRequest url r.Username r.Password) = Except.ok resp ∧
          (out ∈ fs.devices ∨ ∃ t rd w, (transferStep env r a m out fs).fs.find out =
            some (Node.file resp.Body.data t rd w))) := by
  simp only [transferStep, hurl, httpGet]
  cases hrt : env.roundTrip (httpRequest url r.Username r.Password) with
  | error err => simp
  | ok resp =>
    by_cases hs : 400 ≤ resp.StatusCode
    · simp [hs]
    · have hlt : resp.StatusCode < 400 := by omega
      simp only [hs, if_false]
      generalize (if env.pathDir out = [] then lit "." else env.pathDir out) = dir
      cases hst : osStat fs dir with
      | none =>
        simp only []
        cases hcr : osCreate fs dir out with
        | mk e2 fs2 =>
          cases e2 with
          | some err => simp [hlt]
          | none =>
            simp only []
            cases hcp : copyToFile fs2 out resp.Body with
            | mk e3 fs3 =>
              cases e3 with
              | some err => simp [hlt]
              | none =>
                have hback := written_back fs fs2 fs3 dir out resp.Body hcr hcp
                refine ⟨_, rfl, by simp, by simp, ?_, ?_⟩
                · intro resp2 h2 hs2
                  cases h2
                  exact absurd hs2 hs
                · intro p hp
                  simp at hp
                  exact ⟨hp.symm, resp, rfl, hback⟩
      | some serr =>
        simp only []
        cases hmk : osMkdirAll fs dir with
        | mk e1 fs1 =>
          have hdevs : fs1.devices = fs.devices := by
            have h := osMkdirAll_devices fs dir
            rw [hmk] at h
            exact h
          cases e1 with
          | some err => simp [hlt]
          | none =>
            simp only []
            cases hcr : osCreate fs1 dir out with
            | mk e2 fs2 =>
              cases e2 with
              | some err => simp [hlt]
              | none =>
                simp only []
                cases hcp : copyToFile fs2 out resp.Body with
                | mk e3 fs3 =>
                  cases e3 with
                  | some err => simp [hlt]
                  | none =>
                    have hback := written_back fs1 fs2 fs3 dir out resp.Body hcr hcp
                    rw [hdevs] at hback
                    refine ⟨_, rfl, by simp, by simp, ?_, ?_⟩
                    · intro resp2 h2 hs2
                      cases h2
                      exact absurd hs2 hs
                    · intro p hp
                      simp at hp
                      exact ⟨hp.symm, resp, rfl, hback⟩

/-- The output path in use after lines 105-107: `outputPath`, or the plain file
name when `outputPath` is empty. -/
theorem outputPath_default (a : Artifact) (out : GoString) :
    ∃ p, (if out = [] then a.FileName none else Outcome.ret out) = Outcome.ret p ∧
      (out ≠ [] → p = out) ∧ (out = [] → a.FileName none = Outcome.ret p) := by
  by_cases ho : out = []
  · subst ho
    obtain ⟨name, hname⟩ : ∃ name, a.FileName none = Outcome.ret name :=
      ⟨_, fileName_none a⟩
    exact ⟨name, by rw [if_pos rfl, hname], fun h => absurd rfl h, fun _ => hname⟩
  · exact ⟨out, by rw [if_neg ho], fun _ => rfl, fun h => absurd h ho⟩

/-- A rolling version is long enough for the cut in `FileName`. -/
theorem fileName_rolling (a : Artifact) (m : Metadata) (h : a.IsSnapshot = true) :
    ∃ name, a.FileName (some m) = Outcome.ret name := by
  have hlen := hasSuffix_length _ _ h
  rw [suffix_length] at hlen
  rw [fileName_some, if_pos hlen]
  exact ⟨_, rfl⟩

/-- The artifact URL is composed whenever the checksum URL is. -/
theorem url_of_checksumUrl (a : Artifact) (r : Repository) (m : Option Metadata)
    (cu : GoString) (h : a.ChecksumUrl r m = Outcome.ret cu) :
    ∃ u, a.Url r m = Outcome.ret u := by
  unfold Artifact.ChecksumUrl at h
  unfold Artifact.Url
  split at h
  · simp at h
  next name hname => exact ⟨_, rfl⟩

/-- Return at the metadata step. -/
theorem download_early (env : Env) (r : Repository) (a : Artifact) (out : GoString)
    (fs : FileSystem) (p : GoString) (early : GoString × Option GoError) (sent1 : List Event)
    (hp : (if out = [] then a.FileName none else Outcome.ret out) = Outcome.ret p)
    (hm : metadataStep env r a = (Sum.inl early, sent1)) :
    DownloadMavenArtifact env r a out fs =
      { ret := Outcome.ret early, fs := fs, trace := sent1 } := by
  simp only [DownloadMavenArtifact, hp, hm]

/-- Panic while composing the checksum URL. -/
theorem download_checksum_panic (env : Env) (r : Repository) (a : Artifact) (out : GoString)
    (fs : FileSystem) (p : GoString) (m : Option Metadata) (sent1 sent2 : List Event)
    (hp : (if out = [] then a.FileName none else Outcome.ret out) = Outcome.ret p)
    (hm : metadataStep env r a = (Sum.inr m, sent1))
    (hc : downloadChecksum env r a m = (Outcome.panic, sent2)) :
    DownloadMavenArtifact env r a out fs =
      { ret := Outcome.panic, fs := fs, trace := sent1 ++ sent2 } := by
  simp only [DownloadMavenArtifact, hp, hm, hc]

/-- Return on a failed checksum fetch. -/
theorem download_checksum_error (env : Env) (r : Repository) (a : Artifact) (out : GoString)
    (fs : FileSystem) (p : GoString) (m : Option Metadata) (sent1 sent2 : List Event)
    (c : GoString) (err : GoError)
    (hp : (if out = [] then a.FileName none else Outcome.ret out) = Outcome.ret p)
    (hm : metadataStep env r a = (Sum.inr m, sent1))
    (hc : downloadChecksum env r a m = (Outcome.ret (c, some err), sent2)) :
    DownloadMavenArtifact env r a out fs =
      { ret := Outcome.ret ([], some err), fs := fs, trace := sent1 ++ sent2 } := by
  simp only [DownloadMavenArtifact, hp, hm, hc]

/-- Return on an error of `verifyChecksum`. -/
theorem download_verify_error (env : Env) (r : Repository) (a : Artifact) (out : GoString)
    (fs : FileSystem) (p : GoString) (m : Option Metadata) (sent1 sent2 : List Event)
    (c : GoString) (b : Bool) (err : GoError)
    (hp : (if out = [] then a.FileName none else Outcome.ret out) = Outcome.ret p)
    (hm : metadataStep env r a = (Sum.inr m, sent1))
    (hc : downloadChecksum env r a m = (Outcome.ret (c, none), sent2))
    (hx : fileExists fs p = true) (hv : verifyChecksum fs p c = (b, some err)) :
    DownloadMavenArtifact env r a out fs =
      { ret := Outcome.ret ([], some err), fs := fs, trace := sent1 ++ sent2 } := by
  simp only [DownloadMavenArtifact, hp, hm, hc, hx, hv, if_true]

/-- Return without transfer when the local digest matches. -/
theorem download_skip (env : Env) (r : Repository) (a : Artifact) (out : GoString)
    (fs : FileSystem) (p : GoString) (m : Option Metadata) (sent1 sent2 : List Event)
    (c : GoString)
    (hp : (if out = [] then a.FileName none else Outcome.ret out) = Outcome.ret p)
    (hm : metadataStep env r a = (Sum.inr m, sent1))
    (hc : downloadChecksum env r a m = (Outcome.ret (c, none), sent2))
    (hx : fileExists fs p = true) (hv : verifyChecksum fs p c = (true, none)) :
    DownloadMavenArtifact env r a out fs =
      { ret := Outcome.ret (p, none), fs := fs, trace := sent1 ++ sent2 } := by
  simp only [DownloadMavenArtifact, hp, hm, hc, hx, hv, if_true, Bool.and_self]

/-- Transfer when the file is missing or its digest differs. -/
theorem download_transfer (env : Env) (r : Repository) (a : Artifact) (out : GoString)
    (fs : FileSystem) (p : GoString) (m : Option Metadata) (sent1 sent2 : List Event)
    (c : GoString)
    (hp : (if out = [] then a.FileName none else Outcome.ret out) = Outcome.ret p)
    (hm : metadataStep env r a = (Sum.inr m, sent1))
    (hc : downloadChecksum env r a m = (Outcome.ret (c, none), sent2))
    (hx : fileExists fs p = false ∨ verifyChecksum fs p c = (false, none)) :
    DownloadMavenArtifact env r a out fs =
      { ret := (transferStep env r a m p fs).ret, fs := (transferStep env r a m p fs).fs,
        trace := sent1 ++ sent2 ++ (transferStep env r a m p fs).trace } := by
  by_cases hx2 : fileExists fs p = true
  · have hv : verifyChecksum fs p c = (false, none) := by
      rcases hx with h | h
      · rw [h] at hx2; exact absurd hx2 (by simp)
      · exact h
    simp [DownloadMavenArtifact, hp, hm, hc, hx2, hv]
  · have hx3 : fileExists fs p = false := by simpa using hx2
    simp [DownloadMavenArtifact, hp, hm, hc, hx3]

/-- The three ways `verifyChecksum` can answer. -/
theorem verifyChecksum_cases (fs : FileSystem) (p c : GoString) :
    verifyChecksum fs p c = (true, none) ∨ verifyChecksum fs p c = (false, none) ∨
      ∃ b err, verifyChecksum fs p c = (b, some err) := by
  rcases h : verifyChecksum fs p c with ⟨b, oerr⟩
  cases oerr with
  | some err => exact Or.inr (Or.inr ⟨b, err, rfl⟩)
  | none => cases b <;> simp

/-- Function `verifyChecksum` answers `true` exactly on a readable file whose MD5
hex digest is the expected one. -/
theorem verifyChecksum_true (fs : FileSystem) (p c : GoString) :
    verifyChecksum fs p c = (true, none) ↔
      ∃ content t w, fs.find p = some (Node.file content t true w) ∧
        EncodeToString (md5Sum content) = c := by
  unfold verifyChecksum osOpen
  cases hf : fs.find p with
  | none => simp
  | some node =>
    cases node with
    | barred => simp
    | dir => simp [copyToHasher]
    | file content t rd wr =>
      cases rd <;> simp [copyToHasher]

/-- Before the transfer step only the metadata and checksum URLs are requested. -/
theorem requests_before_transfer (env : Env) (r : Repository) (a : Artifact)
    (m : Option Metadata) (x : Outcome (GoString × Option GoError)) (sent1 sent2 : List Event)
    (hm : metadataStep env r a = (Sum.inr m, sent1))
    (hc : downloadChecksum env r a m = (x, sent2)) :
    ∀ ev ∈ sent1 ++ sent2, ∃ site req, ev = Event.get site req ∧ site ≠ Site.artifact := by
  intro ev hev
  rcases List.mem_append.mp hev with h | h
  · exact ⟨_, _, metadataStep_trace env r a _ _ hm ev h, by decide⟩
  · obtain ⟨url, -, hev2⟩ := downloadChecksum_trace env r a m _ _ hc ev h
    exact ⟨_, _, hev2, by decide⟩

/-! ## Transfer engine: theorems -/

/-- C1 (amended): once the expected digest has been fetched, the artifact fetch
is attempted exactly when the local file is missing or `verifyChecksum` reports
a differing digest; it is skipped exactly when the file at the output path is a
readable file whose MD5 hex digest equals the expected one (the output
path is returned) or when `fileExists` holds and `verifyChecksum` itself returns
an error (that error is returned and nothing is fetched). -/
theorem artifact_fetch_decision (env : Env) (r : Repository) (a : Artifact) (out : GoString)
    (fs : FileSystem) (p : GoString) (m : Option Metadata) (sent1 sent2 : List Event)
    (checksum : GoString)
    (hp : (if out = [] then a.FileName none else Outcome.ret out) = Outcome.ret p)
    (hm : metadataStep env r a = (Sum.inr m, sent1))
    (hc : downloadChecksum env r a m = (Outcome.ret (checksum, none), sent2)) :
    ((∃ req, Event.get Site.artifact req ∈ (DownloadMavenArtifact env r a out fs).trace) ↔
      (fileExists fs p = false ∨ verifyChecksum fs p checksum = (false, none))) ∧
    ((¬ ∃ req, Event.get Site.artifact req ∈ (DownloadMavenArtifact env r a out fs).trace) ↔
      ((∃ content t w, fs.find p = some (Node.file content t true w) ∧
          EncodeToString (md5Sum content) = checksum) ∨
        (fileExists fs p = true ∧ ∃ b err, verifyChecksum fs p checksum = (b, some err)))) ∧
    (fileExists fs p = true → verifyChecksum fs p checksum = (true, none) →
      (DownloadMavenArtifact env r a out fs).ret = Outcome.ret (p, none) ∧
      (DownloadMavenArtifact env r a out fs).fs = fs) ∧
    (fileExists fs p = true → ∀ b err, verifyChecksum fs p checksum = (b, some err) →
      (DownloadMavenArtifact env r a out fs).ret = Outcome.ret ([], some err) ∧
      (DownloadMavenArtifact env r a out fs).fs = fs) := by
  have hquiet := requests_before_transfer env r a m _ sent1 sent2 hm hc
  have hnone : ∀ req, Event.get Site.artifact req ∉ sent1 ++ sent2 := by
    intro req hmem
    obtain ⟨site, q, heq, hne⟩ := hquiet _ hmem
    cases heq
    exact hne rfl
  have hskip : fileExists fs p = true → verifyChecksum fs p checksum = (true, none) →
      DownloadMavenArtifact env r a out fs =
        { ret := Outcome.ret (p, none), fs := fs, trace := sent1 ++ sent2 } :=
    download_skip env r a out fs p m sent1 sent2 checksum hp hm hc
  have herr : fileExists fs p = true → ∀ b err, verifyChecksum fs p checksum = (b, some err) →
      DownloadMavenArtifact env r a out fs =
        { ret := Outcome.ret ([], some err), fs := fs, trace := sent1 ++ sent2 } :=
    fun hx b err hv => download_verify_error env r a out fs p m sent1 sent2 checksum b err
      hp hm hc hx hv
  have hfetch : (fileExists fs p = false ∨ verifyChecksum fs p checksum = (false, none)) →
      ∃ req, Event.get Site.artifact req ∈ (DownloadMavenArtifact env r a out fs).trace := by
    intro hx
    obtain ⟨cu, _, hcu, -⟩ := downloadChecksum_ok env r a m checksum sent2 hc
    obtain ⟨url, hurl⟩ := url_of_checksumUrl a r m cu hcu
    obtain ⟨rest, htr, -⟩ := transferStep_spec env r a m p fs url hurl
    rw [download_transfer env r a out fs p m sent1 sent2 checksum hp hm hc hx]
    exact ⟨httpRequest url r.Username r.Password, by simp [htr]⟩
  have hfiles : fileExists fs p = false → verifyChecksum fs p checksum ≠ (true, none) := by
    intro hx hv
    obtain ⟨content, t, w, hf, -⟩ := (verifyChecksum_true fs p checksum).mp hv
    simp [fileExists, osStat, hf] at hx
  have hexists : ∀ content t w, fs.find p = some (Node.file content t true w) →
      fileExists fs p = true := by
    intro content t w hf
    simp [fileExists, osStat, hf]
  have hmain : (∃ req, Event.get Site.artifact req ∈
        (DownloadMavenArtifact env r a out fs).trace) ↔
      (fileExists fs p = false ∨ verifyChecksum fs p checksum = (false, none)) := by
    constructor
    · rintro ⟨req, hreq⟩
      by_cases hx : fileExists fs p = true
      · rcases verifyChecksum_cases fs p checksum with hv | hv | ⟨b, err, hv⟩
        · rw [hskip hx hv] at hreq
          exact absurd hreq (hnone req)
        · exact Or.inr hv
        · rw [herr hx b err hv] at hreq
          exact absurd hreq (hnone req)
      · exact Or.inl (by simpa using hx)
    · exact hfetch
  refine ⟨hmain, ?_, ?_, ?_⟩
  · rw [hmain]
    constructor
    · intro hno
      by_cases hx : fileExists fs p = true
      · rcases verifyChecksum_cases fs p checksum with hv | hv | ⟨b, err, hv⟩
        · exact Or.inl ((verifyChecksum_true fs p checksum).mp hv)
        · exact absurd (Or.inr hv) hno
        · exact Or.inr ⟨hx, b, err, hv⟩
      · exact absurd (Or.inl (by simpa using hx)) hno
    · rintro (⟨content, t, w, hf, hd⟩ | ⟨hx, b, err, hv⟩)
      · have hv := (verifyChecksum_true fs p checksum).mpr ⟨content, t, w, hf, hd⟩
        have hx := hexists content t w hf
        rintro (h | h)
        · rw [h] at hx; exact absurd hx (by simp)
        · rw [h] at hv; exact absurd hv (by simp)
      · rintro (h | h)
        · rw [h] at hx; exact absurd hx (by simp)
        · rw [h] at hv; exact absurd hv (by simp)
  · intro hx hv
    rw [hskip hx hv]
    exact ⟨rfl, rfl⟩
  · intro hx b err hv
    rw [herr hx b err hv]
    exact ⟨rfl, rfl⟩

/-- C4: when a fetch made by `DownloadMavenArtifact` is answered with a status
`s` of 400 or more at URL `u`, the call returns the empty path and the error
`status code <s> returned. URL: <u>`; that fetch is the last action of the call,
everything before it is a fetch, the filesystem is untouched, and `u` is the
metadata URL, the checksum URL or the artifact URL according to the call site. -/
theorem status_error (env : Env) (r : Repository) (a : Artifact) (out : GoString)
    (fs : FileSystem) (site : Site) (req : Request) (resp : Response)
    (hmem : Event.get site req ∈ (DownloadMavenArtifact env r a out fs).trace)
    (hrt : env.roundTrip req = Except.ok resp) (hs : 400 ≤ resp.StatusCode) :
    (DownloadMavenArtifact env r a out fs).ret =
      Outcome.ret ([], some (errorsNew
        (lit "status code " ++ decimal resp.StatusCode ++ lit " returned. URL: " ++ req.url))) ∧
    (∃ before, (DownloadMavenArtifact env r a out fs).trace = before ++ [Event.get site req] ∧
      ∀ ev ∈ before, ∃ s q, ev = Event.get s q) ∧
    (DownloadMavenArtifact env r a out fs).fs = fs ∧
    ((site = Site.metadata ∧ req.url = a.MetadataUrl r) ∨
      (∃ m, m.isSome = a.IsSnapshot ∧ site = Site.checksum ∧
        a.ChecksumUrl r m = Outcome.ret req.url) ∨
      (∃ m, m.isSome = a.IsSnapshot ∧ site = Site.artifact ∧
        a.Url r m = Outcome.ret req.url)) := by
  obtain ⟨p, hp, -, -⟩ := outputPath_default a out
  rcases hm : metadataStep env r a with ⟨x, sent1⟩
  cases x with
  | inl early =>
    rw [download_early env r a out fs p early sent1 hp hm] at hmem ⊢
    obtain ⟨rfl, rfl, rfl, hurl⟩ := metadataStep_inl env r a early sent1 hm site req resp hmem hrt hs
    exact ⟨rfl, ⟨[], rfl, by simp⟩, rfl, Or.inl ⟨rfl, hurl⟩⟩
  | inr m =>
    obtain ⟨hsome, hlow⟩ := metadataStep_inr env r a m sent1 hm
    have hnot1 : Event.get site req ∉ sent1 := fun h => hlow site req resp h hrt hs
    rcases hc : downloadChecksum env r a m with ⟨y, sent2⟩
    have hgets : ∀ ev ∈ sent1 ++ sent2, ∃ s q, ev = Event.get s q := by
      intro ev hev
      obtain ⟨s, q, h, -⟩ := requests_before_transfer env r a m y sent1 sent2 hm hc ev hev
      exact ⟨s, q, h⟩
    cases y with
    | panic =>
      obtain ⟨-, rfl⟩ := downloadChecksum_panic env r a m sent2 hc
      rw [download_checksum_panic env r a out fs p m sent1 [] hp hm hc] at hmem
      simp at hmem
      exact absurd hmem hnot1
    | ret v =>
      obtain ⟨c, oerr⟩ := v
      cases oerr with
      | some err =>
        rw [download_checksum_error env r a out fs p m sent1 sent2 c err hp hm hc] at hmem ⊢
        simp only [List.mem_append] at hmem
        rcases hmem with h | h
        · exact absurd h hnot1
        · obtain ⟨rfl, rfl, rfl, hurl⟩ :=
            downloadChecksum_err env r a m c err sent2 hc site req resp h hrt hs
          refine ⟨rfl, ⟨sent1, rfl, ?_⟩, rfl, Or.inr (Or.inl ⟨m, hsome, rfl, hurl⟩)⟩
          intro ev hev
          exact hgets ev (List.mem_append_left _ hev)
      | none =>
        obtain ⟨cu, cresp, hcu, hcrt, hclow, -, -, hsent2⟩ :=
          downloadChecksum_ok env r a m c sent2 hc
        have hnot2 : Event.get site req ∉ sent2 := by
          intro h
          rw [hsent2] at h
          simp at h
          obtain ⟨-, rfl⟩ := h
          rw [hcrt] at hrt
          cases hrt
          exact hclow hs
        have hnot : Event.get site req ∉ sent1 ++ sent2 := by
          intro h
          rcases List.mem_append.mp h with h | h
          · exact hnot1 h
          · exact hnot2 h
        by_cases hx : fileExists fs p = true
        · rcases verifyChecksum_cases fs p c with hv | hv | ⟨b, err, hv⟩
          · rw [download_skip env r a out fs p m sent1 sent2 c hp hm hc hx hv] at hmem
            exact absurd hmem hnot
          · obtain ⟨url, hurl⟩ := url_of_checksumUrl a r m cu hcu
            obtain ⟨rest, htr, hrest, -, hstatus, -⟩ := transferStep_spec env r a m p fs url hurl
            rw [download_transfer env r a out fs p m sent1 sent2 c hp hm hc (Or.inr hv)]
              at hmem ⊢
            simp only [List.mem_append, htr, List.mem_cons] at hmem
            rcases hmem with (h | h) | h | h
            · exact absurd h hnot1
            · exact absurd h hnot2
            · cases h
              obtain ⟨hret, rfl, hfs⟩ := hstatus resp hrt hs
              refine ⟨?_, ⟨sent1 ++ sent2, ?_, hgets⟩, hfs,
                Or.inr (Or.inr ⟨m, hsome, rfl, ?_⟩)⟩
              · simp only [hret, statusMessage, httpRequest_url]
              · simp only [htr]
              · simp only [httpRequest_url, hurl]
            · exact absurd rfl (hrest _ h site req)
          · rw [download_verify_error env r a out fs p m sent1 sent2 c b err hp hm hc hx hv]
              at hmem
            exact absurd hmem hnot
        · have hx2 : fileExists fs p = false := by simpa using hx
          obtain ⟨url, hurl⟩ := url_of_checksumUrl a r m cu hcu
          obtain ⟨rest, htr, hrest, -, hstatus, -⟩ := transferStep_spec env r a m p fs url hurl
          rw [download_transfer env r a out fs p m sent1 sent2 c hp hm hc (Or.inl hx2)]
            at hmem ⊢
          simp only [List.mem_append, htr, List.mem_cons] at hmem
          rcases hmem with (h | h) | h | h
          · exact absurd h hnot1
          · exact absurd h hnot2
          · cases h
            obtain ⟨hret, rfl, hfs⟩ := hstatus resp hrt hs
            refine ⟨?_, ⟨sent1 ++ sent2, ?_, hgets⟩, hfs,
              Or.inr (Or.inr ⟨m, hsome, rfl, ?_⟩)⟩
            · simp only [hret, statusMessage, httpRequest_url]
            · simp only [htr]
            · simp only [httpRequest_url, hurl]
          · exact absurd rfl (hrest _ h site req)

/-- C2 (amended): if a call succeeds, the returned path names no device and
whatever file the call leaves there may be read, and the checksum served to the
call is the MD5 hex digest of the artifact body served to it, then a second call
with the same inputs against the same remote returns the same path with no
error, performs only metadata and checksum fetches (no artifact fetch, no
directory creation, no file creation, no write), and leaves the filesystem, so
also the file's content and modification time, exactly as the first call left
it. -/
theorem download_twice (env : Env) (r : Repository) (a : Artifact) (out : GoString)
    (fs : FileSystem) (p : GoString)
    (hfirst : (DownloadMavenArtifact env r a out fs).ret = Outcome.ret (p, none))
    (hdev : p ∉ fs.devices)
    (hread : ∀ content t rd w,
      (DownloadMavenArtifact env r a out fs).fs.find p = some (Node.file content t rd w) →
      rd = true)
    (hremote : ∀ creq areq cresp aresp,
      Event.get Site.checksum creq ∈ (DownloadMavenArtifact env r a out fs).trace →
      Event.get Site.artifact areq ∈ (DownloadMavenArtifact env r a out fs).trace →
      env.roundTrip creq = Except.ok cresp → env.roundTrip areq = Except.ok aresp →
      cresp.Body.data = EncodeToString (md5Sum aresp.Body.data)) :
    (DownloadMavenArtifact env r a out (DownloadMavenArtifact env r a out fs).fs).ret =
      Outcome.ret (p, none) ∧
    (∀ ev ∈ (DownloadMavenArtifact env r a out (DownloadMavenArtifact env r a out fs).fs).trace,
      ∃ site req, ev = Event.get site req ∧ site ≠ Site.artifact) ∧
    (DownloadMavenArtifact env r a out (DownloadMavenArtifact env r a out fs).fs).fs =
      (DownloadMavenArtifact env r a out fs).fs := by
  obtain ⟨p0, hp, -, -⟩ := outputPath_default a out
  rcases hm : metadataStep env r a with ⟨x, sent1⟩
  cases x with
  | inl early =>
    have hshape := fun fs0 => download_early env r a out fs0 p0 early sent1 hp hm
    rw [hshape fs] at hfirst ⊢
    rw [hshape fs]
    refine ⟨hfirst, ?_, rfl⟩
    intro ev hev
    exact ⟨_, _, metadataStep_trace env r a _ _ hm ev hev, by decide⟩
  | inr m =>
    rcases hc : downloadChecksum env r a m with ⟨y, sent2⟩
    have hquiet := requests_before_transfer env r a m y sent1 sent2 hm hc
    cases y with
    | panic =>
      rw [download_checksum_panic env r a out fs p0 m sent1 sent2 hp hm hc] at hfirst
      simp at hfirst
    | ret v =>
      obtain ⟨c, oerr⟩ := v
      cases oerr with
      | some err =>
        rw [download_checksum_error env r a out fs p0 m sent1 sent2 c err hp hm hc] at hfirst
        simp at hfirst
      | none =>
        have hskip := fun fs0 => download_skip env r a out fs0 p0 m sent1 sent2 c hp hm hc
        have htransfer : (fileExists fs p0 = false ∨ verifyChecksum fs p0 c = (false, none)) →
            (DownloadMavenArtifact env r a out (DownloadMavenArtifact env r a out fs).fs).ret =
              Outcome.ret (p, none) ∧
            (∀ ev ∈ (DownloadMavenArtifact env r a out
                (DownloadMavenArtifact env r a out fs).fs).trace,
              ∃ site req, ev = Event.get site req ∧ site ≠ Site.artifact) ∧
            (DownloadMavenArtifact env r a out (DownloadMavenArtifact env r a out fs).fs).fs =
              (DownloadMavenArtifact env r a out fs).fs := by
          intro hx
          obtain ⟨cu, cresp, hcu, hcrt, -, -, hcdata, hsent2⟩ :=
            downloadChecksum_ok env r a m c sent2 hc
          obtain ⟨url, hurl⟩ := url_of_checksumUrl a r m cu hcu
          obtain ⟨rest, htr, -, -, -, hdone⟩ := transferStep_spec env r a m p0 fs url hurl
          have hD := download_transfer env r a out fs p0 m sent1 sent2 c hp hm hc hx
          rw [hD] at hfirst hread
          obtain ⟨rfl, aresp, hart, hnode⟩ := hdone p hfirst
          obtain ⟨t, rd, w, hfile⟩ := hnode.resolve_left hdev
          have hrd : rd = true := hread _ t rd w hfile
          subst hrd
          have hdigest : c = EncodeToString (md5Sum aresp.Body.data) := by
            rw [hcdata]
            apply hremote (httpRequest cu r.Username r.Password)
              (httpRequest url r.Username r.Password) cresp aresp _ _ hcrt hart
            · rw [hD]
              simp [hsent2]
            · rw [hD]
              simp [htr]
          have hx2 : fileExists (transferStep env r a m p fs).fs p = true := by
            simp [fileExists, osStat, hfile]
          have hv2 : verifyChecksum (transferStep env r a m p fs).fs p c = (true, none) :=
            (verifyChecksum_true _ p c).mpr ⟨_, t, w, hfile, hdigest.symm⟩
          rw [hD]
          rw [hskip _ hx2 hv2]
          exact ⟨rfl, hquiet, rfl⟩
        by_cases hx : fileExists fs p0 = true
        · rcases verifyChecksum_cases fs p0 c with hv | hv | ⟨b, err, hv⟩
          · rw [hskip fs hx hv] at hfirst ⊢
            rw [hskip fs hx hv]
            exact ⟨hfirst, hquiet, rfl⟩
          · exact htransfer (Or.inr hv)
          · rw [download_verify_error env r a out fs p0 m sent1 sent2 c b err hp hm hc hx hv]
              at hfirst
            simp at hfirst
        · exact htransfer (Or.inl (by simpa using hx))

/-! ## Closed statements on the sample world -/

/-- MD5 test vector of RFC 1321: the digest of the empty message. -/
theorem md5Sum_empty : EncodeToString (md5Sum []) = lit "d41d8cd98f00b204e9800998ecf8427e" := by
  decide

/-- MD5 test vector of RFC 1321: the digest of `abc`. -/
theorem md5Sum_abc :
    EncodeToString (md5Sum (lit "abc")) = lit "900150983cd24fb0d6963f7d28e17f72" := by
  decide

/-- The sample digest is the MD5 hex digest of the sample jar. -/
theorem jarDigest_eq : EncodeToString (md5Sum jarBytes) = jarDigest := by decide

/-- Test `TestDownloadSnapshot` on the sample world: the descriptor is fetched,
the timestamped build is requested, and the returned path is the plain name. -/
theorem snapshot_download_sample :
    (DownloadMavenArtifact sampleEnv snapshots commonsTextSnapshot [] emptyDisk).ret =
      Outcome.ret (lit "commons-text-1.10.1-SNAPSHOT.jar", none) ∧
    (DownloadMavenArtifact sampleEnv snapshots commonsTextSnapshot [] emptyDisk).trace =
      [Event.get Site.metadata { url := snapshotDir ++ lit "maven-metadata.xml", auth := none },
       Event.get Site.checksum
        { url := snapshotDir ++ lit "commons-text-1.10.1-20220816.123456-7.jar.md5",
          auth := none },
       Event.get Site.artifact
        { url := snapshotDir ++ lit "commons-text-1.10.1-20220816.123456-7.jar", auth := none },
       Event.create (lit "commons-text-1.10.1-SNAPSHOT.jar"),
       Event.write (lit "commons-text-1.10.1-SNAPSHOT.jar") snapshotBytes] := by
  refine ⟨by decide, by decide⟩

/-- Test `TestDownloadWithOutputPath` on the sample world: the explicit path is
returned and its directory is created. -/
theorem output_path_sample :
    (DownloadMavenArtifact sampleEnv central commonsText (lit "out/path.jar") emptyDisk).ret =
      Outcome.ret (lit "out/path.jar", none) ∧
    (DownloadMavenArtifact sampleEnv central commonsText (lit "out/path.jar") emptyDisk).fs.find
      (lit "out") = some Node.dir ∧
    (DownloadMavenArtifact sampleEnv central commonsText (lit "out/path.jar") emptyDisk).fs.find
      (lit "out/path.jar") = some (Node.file jarBytes 2 true true) := by
  refine ⟨by decide, by decide, by decide⟩

/-- On an empty disk the fixed-version test coordinate is fetched: the digest
arrives, the file is missing, the artifact request is made. -/
theorem artifact_fetch_decision_witness :
    downloadChecksum sampleEnv central commonsText none =
      (Outcome.ret (jarDigest, none),
        [Event.get Site.checksum
          { url := jarChecksumUrl, auth := none }]) ∧
    fileExists emptyDisk (jarPath) = false ∧
    ∃ req, Event.get Site.artifact req ∈
      (DownloadMavenArtifact sampleEnv central commonsText [] emptyDisk).trace :=
  ⟨by decide, by decide,
    (artifact_fetch_decision sampleEnv central commonsText [] emptyDisk jarPath none []
      [Event.get Site.checksum { url := jarChecksumUrl, auth := none }] jarDigest
      (by decide) (by decide) (by decide)).1.mpr (Or.inl (by decide))⟩

/-- C1 as stated fails: with `commons-text-1.9.jar` present, unreadable and of
a differing digest, the digest is fetched, `verifyChecksum` returns an error, and
the call returns that error after the checksum request alone, without
attempting the artifact fetch. -/
theorem fetch_skipped_on_verify_error :
    (downloadChecksum sampleEnv central commonsText none).1 =
      Outcome.ret (jarDigest, none) ∧
    lockedDisk.find jarPath = some (Node.file (lit "stale") 0 false true) ∧
    EncodeToString (md5Sum (lit "stale")) ≠ jarDigest ∧
    verifyChecksum lockedDisk (jarPath) jarDigest =
      (false, some lockedError) ∧
    DownloadMavenArtifact sampleEnv central commonsText [] lockedDisk =
      { ret := Outcome.ret ([], some lockedError),
        fs := lockedDisk,
        trace := [Event.get Site.checksum
          { url := jarChecksumUrl, auth := none }] } := by
  refine ⟨by decide, by decide, by decide, by decide, by decide⟩

/-- C2 as stated fails.  Under a umask that takes the owner's read permission
from created files the first call succeeds and the second returns the error of
`os.Open`; with `/dev/null` as output path both calls succeed and the second
fetches the artifact and writes again.  In both the served checksum is the MD5
hex digest of the served body. -/
theorem download_twice_not_idempotent :
    EncodeToString (md5Sum jarBytes) = jarDigest ∧
    (DownloadMavenArtifact sampleEnv central commonsText [] maskedDisk).ret =
      Outcome.ret (jarPath, none) ∧
    (DownloadMavenArtifact sampleEnv central commonsText []
      (DownloadMavenArtifact sampleEnv central commonsText [] maskedDisk).fs).ret =
      Outcome.ret ([], some lockedError) ∧
    (DownloadMavenArtifact sampleEnv central commonsText devNull deviceDisk).ret =
      Outcome.ret (devNull, none) ∧
    (DownloadMavenArtifact sampleEnv central commonsText devNull
      (DownloadMavenArtifact sampleEnv central commonsText devNull deviceDisk).fs).trace =
      [Event.get Site.checksum { url := jarChecksumUrl, auth := none },
       Event.get Site.artifact { url := jarUrl, auth := none },
       Event.create devNull,
       Event.write devNull jarBytes] := by
  refine ⟨by decide, by decide, by decide, by decide, by decide⟩

/-- Test `TestDownloadTwice` on the sample world: the first call leaves a
readable file at `commons-text-1.9.jar`, which is no device; the second call
returns the same path, only asks for the checksum, and leaves the disk as the
first call left it. -/
theorem download_twice_witness :
    (DownloadMavenArtifact sampleEnv central commonsText [] emptyDisk).ret =
      Outcome.ret (jarPath, none) ∧
    jarPath ∉ emptyDisk.devices ∧
    (DownloadMavenArtifact sampleEnv central commonsText [] emptyDisk).fs.find jarPath =
      some (Node.file jarBytes 1 true true) ∧
    (DownloadMavenArtifact sampleEnv central commonsText []
      (DownloadMavenArtifact sampleEnv central commonsText [] emptyDisk).fs).ret =
      Outcome.ret (jarPath, none) ∧
    (DownloadMavenArtifact sampleEnv central commonsText []
      (DownloadMavenArtifact sampleEnv central commonsText [] emptyDisk).fs).fs =
      (DownloadMavenArtifact sampleEnv central commonsText [] emptyDisk).fs := by
  have hfirst : (DownloadMavenArtifact sampleEnv central commonsText [] emptyDisk).ret =
      Outcome.ret (jarPath, none) := by decide
  have hfile : (DownloadMavenArtifact sampleEnv central commonsText [] emptyDisk).fs.find
      jarPath = some (Node.file jarBytes 1 true true) := by decide
  have htrace : (DownloadMavenArtifact sampleEnv central commonsText [] emptyDisk).trace =
      [Event.get Site.checksum { url := jarChecksumUrl, auth := none },
       Event.get Site.artifact { url := jarUrl, auth := none },
       Event.create jarPath,
       Event.write jarPath jarBytes] := by decide
  have hc : sampleEnv.roundTrip { url := jarChecksumUrl, auth := none } =
      Except.ok (served jarDigest) := by
    decide
  have ha : sampleEnv.roundTrip { url := jarUrl, auth := none } =
      Except.ok (served jarBytes) := by
    decide
  have h := download_twice sampleEnv central commonsText [] emptyDisk jarPath hfirst
    (by decide)
    (by
      intro content t rd w hnode
      rw [hfile] at hnode
      cases hnode
      rfl)
    (by
      intro creq areq cresp aresp h1 h2 h3 h4
      rw [htrace] at h1 h2
      simp at h1 h2
      subst h1
      subst h2
      rw [hc] at h3
      rw [ha] at h4
      cases h3
      cases h4
      exact jarDigest_eq.symm)
  exact ⟨hfirst, by decide, hfile, h.1, h.2.2⟩

/-- Test `TestDownloadNotFound` on the sample world: the checksum request for
`invalid.group:commons-text:1.9` is answered `404` and the call returns the
status error for that URL. -/
theorem status_error_witness :
    sampleEnv.roundTrip
      { url := missingChecksumUrl, auth := none } =
      Except.ok { StatusCode := 404, Body := { data := [], fault := none } } ∧
    (DownloadMavenArtifact sampleEnv central invalidGroup [] emptyDisk).ret =
      Outcome.ret ([], some (errorsNew (lit "status code 404 returned. URL: " ++ missingChecksumUrl))) ∧
    (DownloadMavenArtifact sampleEnv central invalidGroup [] emptyDisk).fs = emptyDisk :=
  have h := status_error sampleEnv central invalidGroup [] emptyDisk Site.checksum
    { url := missingChecksumUrl, auth := none }
    { StatusCode := 404, Body := { data := [], fault := none } }
    (by decide) (by decide) (by decide)
  ⟨by decide, h.1.trans (by decide), h.2.2.1⟩

/-- The metadata step returns no error only on a descriptor that does not
parse, and then with the empty path. -/
theorem metadataStep_nil_error (env : Env) (r : Repository) (a : Artifact) (q : GoString)
    (sent : List Event) (h : metadataStep env r a = (Sum.inl (q, none), sent)) :
    q = [] ∧ a.IsSnapshot = true ∧ ∃ resp body err,
      httpGet env (a.MetadataUrl r) r.Username r.Password = Except.ok resp ∧
      ¬ 400 ≤ resp.StatusCode ∧ ReadAll resp.Body = Except.ok body ∧
      env.xmlUnmarshal body = Except.error err := by
  simp only [metadataStep] at h
  split at h
  next hs =>
    split at h
    · simp at h
    next resp hget =>
      split at h
      · simp at h
      next hlow =>
        split at h
        · simp at h
        next body hbody =>
          split at h
          next err herr =>
            simp at h
            exact ⟨h.1, hs, resp, body, err, hget, hlow, hbody, herr⟩
          · simp at h
  · simp at h

/-- A descriptor that does not parse ends the call with the empty path and a
nil error, after the metadata request alone. -/
theorem malformed_metadata_exit (env : Env) (r : Repository) (a : Artifact) (out : GoString)
    (fs : FileSystem) (resp : Response) (body : GoString) (err : GoError)
    (hs : a.IsSnapshot = true)
    (hget : httpGet env (a.MetadataUrl r) r.Username r.Password = Except.ok resp)
    (hlow : ¬ 400 ≤ resp.StatusCode) (hbody : ReadAll resp.Body = Except.ok body)
    (hxml : env.xmlUnmarshal body = Except.error err) :
    DownloadMavenArtifact env r a out fs =
      { ret := Outcome.ret ([], none), fs := fs,
        trace := [Event.get Site.metadata
          (httpRequest (a.MetadataUrl r) r.Username r.Password)] } := by
  obtain ⟨p, hp, -, -⟩ := outputPath_default a out
  have hm : metadataStep env r a = (Sum.inl ([], none),
      [Event.get Site.metadata (httpRequest (a.MetadataUrl r) r.Username r.Password)]) := by
    simp only [metadataStep, hs, hget, hbody, hxml, if_true]
    rw [if_neg hlow]
  exact download_early env r a out fs p _ _ hp hm

/-- Whenever the call returns no error, the returned path is the output path in
use (`outputPath`, or the plain file name when it is empty), except on the
return at a descriptor that does not parse, where it is empty. -/
theorem returned_path (env : Env) (r : Repository) (a : Artifact) (out : GoString)
    (fs : FileSystem) (p : GoString)
    (h : (DownloadMavenArtifact env r a out fs).ret = Outcome.ret (p, none)) :
    (if out = [] then a.FileName none else Outcome.ret out) = Outcome.ret p ∨
    (p = [] ∧ a.IsSnapshot = true ∧ ∃ resp body err,
      httpGet env (a.MetadataUrl r) r.Username r.Password = Except.ok resp ∧
      ¬ 400 ≤ resp.StatusCode ∧ ReadAll resp.Body = Except.ok body ∧
      env.xmlUnmarshal body = Except.error err) := by
  obtain ⟨p0, hp, -, -⟩ := outputPath_default a out
  rcases hm : metadataStep env r a with ⟨x, sent1⟩
  cases x with
  | inl early =>
    rw [download_early env r a out fs p0 early sent1 hp hm] at h
    simp at h
    subst h
    exact Or.inr (metadataStep_nil_error env r a p sent1 hm)
  | inr m =>
    rcases hc : downloadChecksum env r a m with ⟨y, sent2⟩
    cases y with
    | panic =>
      rw [download_checksum_panic env r a out fs p0 m sent1 sent2 hp hm hc] at h
      simp at h
    | ret v =>
      obtain ⟨c, oerr⟩ := v
      cases oerr with
      | some err =>
        rw [download_checksum_error env r a out fs p0 m sent1 sent2 c err hp hm hc] at h
        simp at h
      | none =>
        have htransfer : (fileExists fs p0 = false ∨ verifyChecksum fs p0 c = (false, none)) →
            p = p0 := by
          intro hx
          obtain ⟨cu, _, hcu, -⟩ := downloadChecksum_ok env r a m c sent2 hc
          obtain ⟨url, hurl⟩ := url_of_checksumUrl a r m cu hcu
          obtain ⟨rest, -, -, -, -, hdone⟩ := transferStep_spec env r a m p0 fs url hurl
          rw [download_transfer env r a out fs p0 m sent1 sent2 c hp hm hc hx] at h
          exact (hdone p h).1
        by_cases hx : fileExists fs p0 = true
        · rcases verifyChecksum_cases fs p0 c with hv | hv | ⟨b, err, hv⟩
          · rw [download_skip env r a out fs p0 m sent1 sent2 c hp hm hc hx hv] at h
            simp at h
            rw [← h]
            exact Or.inl hp
          · rw [htransfer (Or.inr hv)]
            exact Or.inl hp
          · rw [download_verify_error env r a out fs p0 m sent1 sent2 c b err hp hm hc hx hv]
              at h
            simp at h
        · rw [htransfer (Or.inl (by simpa using hx))]
          exact Or.inl hp

/-- Function `DownloadMavenArtifact` never panics: a resolved build reaches `FileName`
only for a rolling version. -/
theorem download_no_panic (env : Env) (r : Repository) (a : Artifact) (out : GoString)
    (fs : FileSystem) : (DownloadMavenArtifact env r a out fs).ret ≠ Outcome.panic := by
  obtain ⟨p0, hp, -, -⟩ := outputPath_default a out
  rcases hm : metadataStep env r a with ⟨x, sent1⟩
  cases x with
  | inl early =>
    rw [download_early env r a out fs p0 early sent1 hp hm]
    simp
  | inr m =>
    obtain ⟨hsome, -⟩ := metadataStep_inr env r a m sent1 hm
    rcases hc : downloadChecksum env r a m with ⟨y, sent2⟩
    cases y with
    | panic =>
      obtain ⟨hcu, -⟩ := downloadChecksum_panic env r a m sent2 hc
      exfalso
      unfold Artifact.ChecksumUrl at hcu
      cases m with
      | none =>
        rw [fileName_none] at hcu
        simp at hcu
      | some build =>
        obtain ⟨name, hname⟩ := fileName_rolling a build (by simpa using hsome.symm)
        rw [hname] at hcu
        simp at hcu
    | ret v =>
      obtain ⟨c, oerr⟩ := v
      cases oerr with
      | some err =>
        rw [download_checksum_error env r a out fs p0 m sent1 sent2 c err hp hm hc]
        simp
      | none =>
        have htransfer : (fileExists fs p0 = false ∨ verifyChecksum fs p0 c = (false, none)) →
            (DownloadMavenArtifact env r a out fs).ret ≠ Outcome.panic := by
          intro hx
          obtain ⟨cu, _, hcu, -⟩ := downloadChecksum_ok env r a m c sent2 hc
          obtain ⟨url, hurl⟩ := url_of_checksumUrl a r m cu hcu
          obtain ⟨rest, -, -, hnp, -⟩ := transferStep_spec env r a m p0 fs url hurl
          rw [download_transfer env r a out fs p0 m sent1 sent2 c hp hm hc hx]
          exact hnp
        by_cases hx : fileExists fs p0 = true
        · rcases verifyChecksum_cases fs p0 c with hv | hv | ⟨b, err, hv⟩
          · rw [download_skip env r a out fs p0 m sent1 sent2 c hp hm hc hx hv]
            simp
          · exact htransfer (Or.inr hv)
          · rw [download_verify_error env r a out fs p0 m sent1 sent2 c b err hp hm hc hx hv]
            simp
        · exact htransfer (Or.inl (by simpa using hx))

/-- No hexadecimal digit is a line feed. -/
theorem hexDigit_ne_newline (i : Nat) : hexDigit i ≠ 10 := by
  by_cases h : i < 16
  · have key : ∀ j < 16, hexDigit j ≠ 10 := by decide
    exact key i h
  · have hlen : hextable.length ≤ i := by
      have : hextable.length = 16 := by decide
      omega
    unfold hexDigit
    rw [List.getD_eq_default _ _ hlen]
    decide

/-- A hexadecimal encoding holds no line feed. -/
theorem encode_no_newline (src : GoString) : (10 : UInt8) ∉ EncodeToString src := by
  induction src with
  | nil => simp [EncodeToString]
  | cons v rest ih =>
    simp only [EncodeToString, List.mem_cons, not_or]
    exact ⟨fun h => hexDigit_ne_newline _ h.symm, fun h => hexDigit_ne_newline _ h.symm, ih⟩

/-- C5 at a failing input: the rolling test coordinate against a repository
whose descriptor is the text `not xml`, served with status 200.  The decoder
rejects the body, and the call returns the empty path with a nil error, not an
error, after the metadata request alone and without touching the disk. -/
theorem malformed_metadata_nil_error :
    commonsTextSnapshot.IsSnapshot = true ∧
    sampleEnv.roundTrip { url := brokenMetadataUrl, auth := none } =
      Except.ok (served (lit "not xml")) ∧
    sampleEnv.xmlUnmarshal (lit "not xml") =
      Except.error { msg := lit "EOF", notExist := false } ∧
    DownloadMavenArtifact sampleEnv brokenSnapshots commonsTextSnapshot [] emptyDisk =
      { ret := Outcome.ret ([], none), fs := emptyDisk,
        trace := [Event.get Site.metadata { url := brokenMetadataUrl, auth := none }] } :=
  ⟨by decide, by decide, by decide,
    (malformed_metadata_exit sampleEnv brokenSnapshots commonsTextSnapshot [] emptyDisk
      (served (lit "not xml")) (lit "not xml") { msg := lit "EOF", notExist := false }
      (by decide) (by decide) (by decide) (by decide) (by decide)).trans (by decide)⟩

/-- C3 at a failing input: against the repository whose descriptor does not
parse, the call returns no error and the empty path, which is neither the
requested `out/path.jar` nor, when no output path is given, the plain file name
`commons-text-1.10.1-SNAPSHOT.jar`. -/
theorem empty_path_without_error :
    (DownloadMavenArtifact sampleEnv brokenSnapshots commonsTextSnapshot (lit "out/path.jar")
      emptyDisk).ret = Outcome.ret ([], none) ∧
    (DownloadMavenArtifact sampleEnv brokenSnapshots commonsTextSnapshot [] emptyDisk).ret =
      Outcome.ret ([], none) ∧
    commonsTextSnapshot.FileName none = Outcome.ret (lit "commons-text-1.10.1-SNAPSHOT.jar") ∧
    lit "out/path.jar" ≠ [] ∧ lit "commons-text-1.10.1-SNAPSHOT.jar" ≠ [] := by
  refine ⟨by decide, by decide, by decide, by decide, by decide⟩

/-- C8 as stated fails: the version `1.9` has three bytes, fewer than the nine
of `-SNAPSHOT`, and `FileName` with a resolved build panics on the slice. -/
theorem fileName_short_version_panics :
    commonsText.Version.length < SnapshotVersionSuffix.length ∧
    commonsText.FileName (some sampleBuild) = Outcome.panic := by
  refine ⟨by decide, by decide⟩

/-- C8 (amended): `FileName` has no bound check and no error result.  With a
resolved build it panics exactly when the version has fewer bytes than
`-SNAPSHOT`; for every rolling version it returns a name; and
`DownloadMavenArtifact`, which passes a resolved build only for a rolling
version, never panics. -/
theorem fileName_cut_range (a : Artifact) (m : Metadata) :
    (a.FileName (some m) = Outcome.panic ↔
      a.Version.length < SnapshotVersionSuffix.length) ∧
    (a.IsSnapshot = true → ∃ name, a.FileName (some m) = Outcome.ret name) ∧
    (∀ (env : Env) (r : Repository) (out : GoString) (fs : FileSystem),
      (DownloadMavenArtifact env r a out fs).ret ≠ Outcome.panic) := by
  refine ⟨?_, fileName_rolling a m, fun env r out fs => download_no_panic env r a out fs⟩
  rw [fileName_some, suffix_length]
  by_cases h : 9 ≤ a.Version.length
  · rw [if_pos h]
    constructor
    · intro hp; cases hp
    · intro hlt; omega
  · rw [if_neg h]
    constructor
    · intro _; omega
    · intro _; rfl

/-- The rolling test coordinate is long enough, the fixed one is not. -/
theorem fileName_cut_range_witness :
    commonsTextSnapshot.IsSnapshot = true ∧
    (∃ name, commonsTextSnapshot.FileName (some sampleBuild) = Outcome.ret name) ∧
    commonsText.FileName (some sampleBuild) = Outcome.panic :=
  ⟨by decide, (fileName_cut_range commonsTextSnapshot sampleBuild).2.1 (by decide),
    (fileName_cut_range commonsText sampleBuild).1.mpr (by decide)⟩

/-- C10 as stated fails: the mirror serves the digest followed by a line feed,
`downloadChecksum` returns it with the line feed, not trimmed, and the returned
text does not match the up-to-date local file although its trimmed form does. -/
theorem checksum_not_trimmed :
    (downloadChecksum sampleEnv newlineMirror commonsText none).1 =
      Outcome.ret (jarDigest ++ [10], none) ∧
    trimmed (jarDigest ++ [10]) = jarDigest ∧
    jarDigest ++ [10] ≠ trimmed (jarDigest ++ [10]) ∧
    verifyChecksum freshDisk jarPath (jarDigest ++ [10]) = (false, none) ∧
    verifyChecksum freshDisk jarPath (trimmed (jarDigest ++ [10])) = (true, none) := by
  refine ⟨by decide, by decide, by decide, by decide, by decide⟩

/-- C10 (amended): for a checksum response with status below 400 whose body is
read in full, `downloadChecksum` returns the body verbatim, neither trimmed nor
decoded; so a served digest followed by a line feed keeps its line feed and
never compares equal to the MD5 hex digest of a local file. -/
theorem downloadChecksum_verbatim (env : Env) (r : Repository) (a : Artifact)
    (m : Option Metadata) (url : GoString) (resp : Response)
    (hurl : a.ChecksumUrl r m = Outcome.ret url)
    (hget : httpGet env url r.Username r.Password = Except.ok resp)
    (hlow : resp.StatusCode < 400) (hread : resp.Body.fault = none) :
    (downloadChecksum env r a m).1 = Outcome.ret (resp.Body.data, none) ∧
    (∀ (digest : GoString) (fs : FileSystem) (path : GoString),
      resp.Body.data = digest ++ [10] → (verifyChecksum fs path resp.Body.data).1 = false) := by
  constructor
  · have hnot : ¬ 400 ≤ resp.StatusCode := by omega
    simp only [downloadChecksum, hurl, hget, ReadAll, hread]
    rw [if_neg hnot]
  · intro digest fs path hbody
    unfold verifyChecksum
    split
    · rfl
    · split
      · rfl
      next written _ =>
        have hne : EncodeToString (md5Sum written) ≠ resp.Body.data := by
          intro heq
          have hmem : (10 : UInt8) ∈ EncodeToString (md5Sum written) := by
            rw [heq, hbody]
            simp
          exact encode_no_newline _ hmem
        simp [hne]

/-- On the mirror with newline-terminated checksums the digest comes back with
its line feed and does not match the up-to-date local file. -/
theorem downloadChecksum_verbatim_witness :
    commonsText.ChecksumUrl newlineMirror none = Outcome.ret mirrorChecksumUrl ∧
    httpGet sampleEnv mirrorChecksumUrl newlineMirror.Username newlineMirror.Password =
      Except.ok (served (jarDigest ++ [10])) ∧
    (downloadChecksum sampleEnv newlineMirror commonsText none).1 =
      Outcome.ret (jarDigest ++ [10], none) ∧
    (verifyChecksum freshDisk jarPath (jarDigest ++ [10])).1 = false :=
  have h := downloadChecksum_verbatim sampleEnv newlineMirror commonsText none mirrorChecksumUrl
    (served (jarDigest ++ [10])) (by decide) (by decide) (by decide) (by decide)
  ⟨by decide, by decide, h.1, h.2 jarDigest freshDisk jarPath rfl⟩

end Maven
